import Mathlib

/-!
# gh-app-manifest-flow-demo: a shallow embedding of `main.go`

The Go program is a small web server that registers and installs a GitHub App
through the manifest flow. Its handlers read and write one process-wide
`appConfig`, one file (`config/app.yml`) and talk to GitHub over HTTP.

The embedding passes that state explicitly (`World`) and takes everything the
program does not define itself (the HTTP client, the JSON, YAML and JWT
libraries, the clock, the file system's willingness to write) as the fields of
an `Env`. Go `error` values are identified with their `Error()` text.
-/

namespace ManifestFlow

/-! ## Go values -/

/-- A Go `error` value, identified with the text `Error()` returns; `none` is `nil`. -/
abbrev GoError := String

/-- Registration details of the GitHub App (`type appConfig struct`). -/
structure appConfig where
  AppID : String := ""
  AppSecret : String := ""
  PEM : String := ""
  ID : Int := 0
  NodeID : String := ""
  Slug : String := ""
  InstallationID : Int := 0
  deriving DecidableEq, Repr

/-- Installation access token (`type accessToken struct`); the Go map is kept as
its list of entries. -/
structure accessToken where
  Token : String := ""
  ExpiresAt : String := ""
  Permissions : List (String × String) := []
  deriving DecidableEq, Repr

/-- Data of the index page shown once the app is installed
(`type installedIndexPage struct`). -/
structure installedIndexPage where
  AppAuthedJSON : String := ""
  AccessTokenJSON : String := ""
  AccessToken : accessToken := {}
  InstallationReposJSON : String := ""
  deriving DecidableEq, Repr

/-- Hook attributes of the manifest (`type manifestHookAttrs struct`). -/
structure manifestHookAttrs where
  URL : String := ""
  Active : Bool := false
  deriving DecidableEq, Repr

/-- App registration manifest (`type manifest struct`). -/
structure manifest where
  Name : String := ""
  URL : String := ""
  RedirectURL : String := ""
  SetupURL : String := ""
  Public : Bool := false
  DefaultPermissions : List (String × String) := []
  HookAttributes : manifestHookAttrs := {}
  DefaultEvents : List String := []
  FormValue : String := ""
  deriving DecidableEq, Repr

/-- Server settings (`type serverConfig struct`). -/
structure serverConfig where
  Scheme : String := ""
  Host : String := ""
  GitHubScheme : String := ""
  GitHubHost : String := ""
  GitHubAppsPrefix : String := ""
  GitHubAPIHost : String := ""
  GitHubAPIPrefix : String := ""
  CreateAppPath : String := ""
  FetchRegistrationPath : String := ""
  InstallPath : String := ""
  Manifest : manifest := {}
  deriving DecidableEq, Repr

def serverCfgPath : String := "config/server.yml"
def manifestPath : String := "config/manifest.yml"
def appCfgPath : String := "config/app.yml"

/-! ## The outside world -/

/-- An outgoing HTTP request: method, URL and the headers added to it, in order.
`http.Post(url, contentType, nil)` is the request with the one header
`Content-Type`. -/
structure HTTPRequest where
  Method : String
  URL : String
  Header : List (String × String) := []
  deriving DecidableEq, Repr

/-- What the program looks at in an `*http.Response`: the status code, the status
line text (`res.Status`, for instance `404 Not Found`), and what reading the
body to its end yields (the bytes read, and the read error if any). -/
structure HTTPResponse where
  StatusCode : Int
  Status : String
  Body : String
  ReadErr : Option GoError := none
  deriving DecidableEq, Repr

/-- An instant, as nanoseconds since the Unix epoch (`time.Time`). -/
structure Time where
  unixNano : Int
  deriving DecidableEq, Repr

/-- A `time.Duration`: a number of nanoseconds. -/
abbrev Duration := Int

def Nanosecond : Duration := 1
def Second : Duration := 1000000000 * Nanosecond
def Minute : Duration := 60 * Second

/-- The instant `d` after `t` (`Time.Add`). -/
def Time.Add (t : Time) (d : Duration) : Time := ⟨t.unixNano + d⟩

/-- Whole seconds since the Unix epoch, rounded down (`Time.Unix`). -/
def Time.Unix (t : Time) : Int := t.unixNano / 1000000000

/-- The claims of a JWT (`jwt.MapClaims`), as the list of entries set, latest
first. All three entries the program sets hold Go `int` values. -/
structure MapClaims where
  entries : List (String × Int) := []
  deriving DecidableEq, Repr

/-- The Go statement `claims[k] = v`. -/
def MapClaims.set (c : MapClaims) (k : String) (v : Int) : MapClaims :=
  ⟨(k, v) :: c.entries.filter (fun e => e.1 ≠ k)⟩

/-- The Go expression `claims[k]`. -/
def MapClaims.get (c : MapClaims) (k : String) : Option Int :=
  (c.entries.find? (fun e => e.1 = k)).map (fun e => e.2)

/-- A write handed to `ioutil.WriteFile`. -/
structure WriteOp where
  path : String
  data : String
  perm : Nat
  deriving DecidableEq, Repr

/-- Everything the program uses and does not define. Calls that reach outside
the process take the number of earlier such calls, so that the same call may
have different outcomes at different moments. -/
structure Env where
  /-- Result of `time.Now()`, given the number of requests sent to GitHub so far. -/
  now : Nat → Time
  /-- Result of `jwt.ParseRSAPrivateKeyFromPEM`: a key (kept as a string) or an error. -/
  parseRSAPrivateKeyFromPEM : String → Except GoError String
  /-- Result of `claims.Valid()`. -/
  claimsValid : MapClaims → Option GoError
  /-- Result of `jwt.NewWithClaims(RS256, claims).SignedString(pk)`. -/
  signedString : String → MapClaims → String × Option GoError
  /-- Error of `http.NewRequest(method, url, nil)`, if any. -/
  newRequest : String → String → Option GoError
  /-- Outcome of sending a request (`client.Do`, `http.Post`), given the number
  of requests sent before it: a transport error or a response. -/
  roundTrip : Nat → HTTPRequest → Except GoError HTTPResponse
  /-- Result of `json.NewDecoder(body).Decode(&cfg)` on a response body, from the
  value `cfg` held before: the value after, and the error. -/
  jsonDecodeAppConfig : HTTPResponse → appConfig → appConfig × Option GoError
  /-- Result of `json.Unmarshal(data, &tok)` from the value held before. -/
  jsonUnmarshalAccessToken : String → accessToken → accessToken × Option GoError
  /-- Result of `json.Marshal(m)` for a manifest. -/
  jsonMarshalManifest : manifest → String × Option GoError
  /-- Result of `yaml.Marshal(cfg)` for an `appConfig`. -/
  yamlMarshalAppConfig : appConfig → String × Option GoError
  /-- Result of `yaml.Unmarshal(data, &cfg)` for an `appConfig`. -/
  yamlUnmarshalAppConfig : String → appConfig → appConfig × Option GoError
  /-- Result of `yaml.Unmarshal(data, &man)` for a manifest. -/
  yamlUnmarshalManifest : String → manifest → manifest × Option GoError
  /-- Result of `yaml.Unmarshal(data, &cfg)` for a `serverConfig`. -/
  yamlUnmarshalServerConfig : String → serverConfig → serverConfig × Option GoError
  /-- Whether a write fails, given the number of earlier writes: `none` when it
  succeeds, otherwise the error and what is left in the file. -/
  writeFault : Nat → WriteOp → Option (GoError × Option String)
  /-- Result of `fmt.Sprintf` for a format string that comes from the
  configuration rather than from the program text. -/
  sprintf : String → List String → String

/-- The state the handlers share: the process-wide `appcfg`, the files, and a
record of what the program did to the outside (requests sent to GitHub, writes
attempted), oldest first. -/
structure World where
  appcfg : appConfig := {}
  files : String → Option String := fun _ => none
  calls : List HTTPRequest := []
  writes : List WriteOp := []

/-! ## strconv.Atoi -/

/-- Value of a decimal digit. -/
def digitVal (c : Char) : Option Nat :=
  if '0' ≤ c ∧ c ≤ '9' then some (c.toNat - '0'.toNat) else none

/-- Value of a run of decimal digits read after `acc`; `none` at the first other character. -/
def parseDigits : Nat → List Char → Option Nat
  | acc, [] => some acc
  | acc, c :: cs =>
    match digitVal c with
    | none => none
    | some d => parseDigits (acc * 10 + d) cs

def atoiSyntaxError (s : String) : GoError :=
  "strconv.Atoi: parsing \"" ++ s ++ "\": invalid syntax"

def atoiRangeError (s : String) : GoError :=
  "strconv.Atoi: parsing \"" ++ s ++ "\": value out of range"

/-- Go `strconv.Atoi` for a 64-bit `int`: an optional sign, then one or more decimal
digits; a value outside the `int` range is an error (and the nearest bound is
returned with it). -/
def Atoi (s : String) : Int × Option GoError :=
  let cs := s.data
  let neg := cs.head? = some '-'
  let ds := if cs.head? = some '-' ∨ cs.head? = some '+' then cs.tail else cs
  if ds = [] then (0, some (atoiSyntaxError s))
  else
    match parseDigits 0 ds with
    | none => (0, some (atoiSyntaxError s))
    | some n =>
      if neg then
        if n ≤ 2 ^ 63 then (-(n : Int), none) else (-(2 ^ 63 : Int), some (atoiRangeError s))
      else
        if n < 2 ^ 63 then ((n : Int), none) else ((2 ^ 63 - 1 : Int), some (atoiRangeError s))

/-! ## Request utilities -/

def buildGitHubURL (path : String) (cfg : serverConfig) : String :=
  cfg.GitHubScheme ++ "://" ++ cfg.GitHubHost ++ path

def buildGitHubAPIURL (path : String) (cfg : serverConfig) : String :=
  cfg.GitHubScheme ++ "://" ++ cfg.GitHubAPIHost ++ cfg.GitHubAPIPrefix ++ path

def buildLocalURL (path : String) (cfg : serverConfig) : String :=
  cfg.Scheme ++ "://" ++ cfg.Host ++ path

/-- Go `makejwt`: the signed JWT used to authenticate as the GitHub App. The
clock is read first; Go's `int(...)` of an `int64` is the identity on a 64-bit
target. -/
def makejwt (env : Env) (cfg : appConfig) (w : World) : String × Option GoError :=
  let iss := cfg.ID
  let now := env.now w.calls.length
  let dur := 10 * Minute
  let iat := now.Unix
  let exp := (now.Add dur).Unix
  match env.parseRSAPrivateKeyFromPEM cfg.PEM with
  | .error err => ("", some err)
  | .ok pk =>
    let claims := ((({} : MapClaims).set "iss" iss).set "iat" iat).set "exp" exp
    match env.claimsValid claims with
    | some err => ("", some err)
    | none => env.signedString pk claims

/-! ## API requests -/

/-- Sending a request: it is recorded, and the environment gives the outcome. -/
def send (env : Env) (req : HTTPRequest) (w : World) :
    Except GoError HTTPResponse × World :=
  (env.roundTrip w.calls.length req, { w with calls := w.calls ++ [req] })

/-- Go `fetchAppRegistration`: exchange the manifest code for the app's configuration.
`http.Post` builds the request with `http.NewRequest` first and returns its
error, with nothing sent, when the URL does not parse. -/
def fetchAppRegistration (env : Env) (servercfg : serverConfig) (code : String) (w : World) :
    (appConfig × Option GoError) × World :=
  let cfg : appConfig := {}
  let url := buildGitHubAPIURL (env.sprintf servercfg.FetchRegistrationPath [code]) servercfg
  match env.newRequest "POST" url with
  | some err => ((cfg, some err), w)
  | none =>
    let sent := send env ⟨"POST", url, [("Content-Type", "application/json")]⟩ w
    match sent.1 with
    | .error err => ((cfg, some err), sent.2)
    | .ok res =>
      if res.StatusCode ≠ 201 then
        ((cfg, some ("fetch app registration failed: " ++ res.Status)), sent.2)
      else
        (env.jsonDecodeAppConfig res cfg, sent.2)

/-- Go `fetchApp`: fetch the currently authenticated app. -/
def fetchApp (env : Env) (servercfg : serverConfig) (cfg : appConfig) (w : World) :
    (String × Option GoError) × World :=
  let url := buildGitHubAPIURL "/app" servercfg
  match env.newRequest "GET" url with
  | some err => (("", some err), w)
  | none =>
    let accept := ("Accept", "application/vnd.github.machine-man-preview+json")
    match makejwt env cfg w with
    | (_, some err) => (("", some err), w)
    | (jwt, none) =>
      let sent := send env ⟨"GET", url, [accept, ("Authorization", "Bearer " ++ jwt)]⟩ w
      match sent.1 with
      | .error err => (("", some err), sent.2)
      | .ok res =>
        let b := res.Body
        let err := res.ReadErr
        if res.StatusCode ≠ 200 then
          ((b, some ("fetch app failed: " ++ res.Status ++ " (" ++ b ++ ")")), sent.2)
        else
          ((b, err), sent.2)

/-- Go `fetchAccessToken`: create an installation token. -/
def fetchAccessToken (env : Env) (servercfg : serverConfig) (cfg : appConfig) (w : World) :
    (String × Option GoError) × World :=
  let url := buildGitHubAPIURL
    ("/app/installations/" ++ toString cfg.InstallationID ++ "/access_tokens") servercfg
  match env.newRequest "POST" url with
  | some err => (("", some err), w)
  | none =>
    let accept := ("Accept", "application/vnd.github.machine-man-preview+json")
    match makejwt env cfg w with
    | (_, some err) => (("", some err), w)
    | (jwt, none) =>
      let sent := send env ⟨"POST", url, [accept, ("Authorization", "Bearer " ++ jwt)]⟩ w
      match sent.1 with
      | .error err => (("", some err), sent.2)
      | .ok res =>
        let b := res.Body
        let err := res.ReadErr
        if res.StatusCode ≠ 201 then
          ((b, some ("fetch access token failed: " ++ res.Status ++ " (" ++ b ++ ")")), sent.2)
        else
          ((b, err), sent.2)

/-- Go `fetchInstallationRepos`: list the repositories of the installation (the
comment above the Go function calls it a request to create an installation
token; it creates none). -/
def fetchInstallationRepos (env : Env) (servercfg : serverConfig) (tok : accessToken)
    (w : World) : (String × Option GoError) × World :=
  let url := buildGitHubAPIURL "/installation/repositories" servercfg
  match env.newRequest "GET" url with
  | some err => (("", some err), w)
  | none =>
    let accept := ("Accept", "application/vnd.github.machine-man-preview+json")
    let sent := send env ⟨"GET", url, [accept, ("Authorization", "Bearer " ++ tok.Token)]⟩ w
    match sent.1 with
    | .error err => (("", some err), sent.2)
    | .ok res =>
      let b := res.Body
      let err := res.ReadErr
      if res.StatusCode ≠ 200 then
        ((b, some ("fetch installation repos failed: " ++ res.Status ++ " (" ++ b ++ ")")), sent.2)
      else
        ((b, err), sent.2)

/-- Go `fetchInstalledDetails`: the series of API calls made as the installed app.
The error of `json.Unmarshal` is assigned to `err` and overwritten by the next
statement without being looked at. -/
def fetchInstalledDetails (env : Env) (servercfg : serverConfig) (appcfg : appConfig)
    (w : World) : (installedIndexPage × Option GoError) × World :=
  let cfg : installedIndexPage := {}
  if appcfg.AppID = "" then ((cfg, some "app not registered"), w)
  else if appcfg.InstallationID = 0 then ((cfg, some "app not installed"), w)
  else
    match fetchApp env servercfg appcfg w with
    | ((appauth, some err), w1) =>
      ((cfg, some ("unable to authenticate as the app: " ++ err ++ " (" ++ appauth ++ ")")), w1)
    | ((appauth, none), w1) =>
      let cfg := { cfg with AppAuthedJSON := appauth }
      match fetchAccessToken env servercfg appcfg w1 with
      | ((token, some err), w2) =>
        ((cfg, some ("unable to fetch access token for installation ("
          ++ toString appcfg.InstallationID ++ "): " ++ err ++ " (" ++ token ++ ")")), w2)
      | ((token, none), w2) =>
        let cfg := { cfg with AccessTokenJSON := token }
        let cfg := { cfg with
          AccessToken := (env.jsonUnmarshalAccessToken token cfg.AccessToken).1 }
        match fetchInstallationRepos env servercfg cfg.AccessToken w2 with
        | ((repos, some err), w3) =>
          ((cfg, some ("unable to fetch installed repositories ("
            ++ toString appcfg.InstallationID ++ "): " ++ err ++ " (" ++ repos ++ ")")), w3)
        | ((repos, none), w3) =>
          (({ cfg with InstallationReposJSON := repos }, none), w3)

/-! ## Configuration files -/

/-- Go `ioutil.ReadFile`: the content of the file, or an error when there is none. -/
def readFile (w : World) (path : String) : String × Option GoError :=
  match w.files path with
  | some b => (b, none)
  | none => ("", some ("open " ++ path ++ ": no such file or directory"))

/-- Go `ioutil.WriteFile`: the attempt is recorded; when the environment lets it
succeed the file holds `data` afterwards. -/
def writeFile (env : Env) (path data : String) (perm : Nat) (w : World) :
    Option GoError × World :=
  let op : WriteOp := ⟨path, data, perm⟩
  match env.writeFault w.writes.length op with
  | none =>
    (none, { w with
      writes := w.writes ++ [op],
      files := fun p => if p = path then some data else w.files p })
  | some (err, left) =>
    (some err, { w with
      writes := w.writes ++ [op],
      files := fun p => if p = path then left else w.files p })

/-- Go `manifest.AsJSON`. -/
def manifest.AsJSON (env : Env) (m : manifest) : String × Option GoError :=
  env.jsonMarshalManifest m

/-- Go `loadManifest`: the manifest of `config/manifest.yml`, with the two
callback URLs of this server and its own JSON. -/
def loadManifest (env : Env) (cfg : serverConfig) (w : World) : manifest × Option GoError :=
  let man : manifest := {}
  match readFile w manifestPath with
  | (_, some err) => (man, some err)
  | (yamlstr, none) =>
    match env.yamlUnmarshalManifest yamlstr man with
    | (man, some err) => (man, some err)
    | (man, none) =>
      let man := { man with RedirectURL := buildLocalURL "/registered" cfg }
      let man := { man with SetupURL := buildLocalURL "/installed" cfg }
      let (json, err) := man.AsJSON env
      ({ man with FormValue := json }, err)

/-- Go `loadServerConfig`: defaults, overlaid with `config/server.yml`, plus the manifest. -/
def loadServerConfig (env : Env) (w : World) : serverConfig × Option GoError :=
  let cfg : serverConfig := {
    Scheme := "http",
    Host := "localhost:5000",
    GitHubScheme := "https",
    GitHubHost := "github.com",
    GitHubAPIHost := "api.github.com",
    GitHubAPIPrefix := "",
    GitHubAppsPrefix := "apps",
    CreateAppPath := "/settings/apps/new",
    FetchRegistrationPath := "/app-manifests/%s/conversions",
    InstallPath := "/%s/%s/installations/new" }
  match readFile w serverCfgPath with
  | (_, some err) => (cfg, some err)
  | (yamlstr, none) =>
    match env.yamlUnmarshalServerConfig yamlstr cfg with
    | (cfg, some err) => (cfg, some err)
    | (cfg, none) =>
      match loadManifest env cfg w with
      | (_, some err) => ({}, some err)
      | (man, none) => ({ cfg with Manifest := man }, none)

/-- Go `loadAppConfig`: the app details of `config/app.yml`. -/
def loadAppConfig (env : Env) (w : World) : appConfig × Option GoError :=
  let cfg : appConfig := {}
  match readFile w appCfgPath with
  | (_, some err) => (cfg, some err)
  | (yamlstr, none) => env.yamlUnmarshalAppConfig yamlstr cfg

/-- Go `writeAppConfig`: persist the app details to `config/app.yml` with mode
0600 (384). What `ioutil.WriteFile` returns is dropped. -/
def writeAppConfig (env : Env) (cfg : appConfig) (w : World) : Option GoError × World :=
  match env.yamlMarshalAppConfig cfg with
  | (_, some err) => (some err, w)
  | (b, none) => (none, (writeFile env appCfgPath b 384 w).2)

/-! ## Endpoints -/

/-- An incoming request, as far as the handlers look at it: the path and the
parsed query string, in order. -/
structure Request where
  Path : String
  Query : List (String × String) := []
  deriving DecidableEq, Repr

/-- Go `r.URL.Query().Get(key)`: the first value of the key, the empty string when
there is none. -/
def Request.queryGet (r : Request) (key : String) : String :=
  match r.Query.find? (fun e => e.1 = key) with
  | some e => e.2
  | none => ""

/-- Data of the index template (`type indexPage struct`). -/
structure indexPage where
  Title : String
  CreateAppURL : String
  InstallURL : String
  installedIndexPage : installedIndexPage
  appConfig : appConfig
  serverConfig : serverConfig
  deriving DecidableEq, Repr

/-- Data of the registered template (`type registeredCallbackPage struct`). -/
structure registeredCallbackPage where
  Title : String
  Code : String
  InstallURL : String
  appConfig : appConfig
  serverConfig : serverConfig
  deriving DecidableEq, Repr

/-- What a handler does to the response writer. -/
inductive Reply where
  /-- Go `http.Redirect(w, r, url, code)`. -/
  | redirect (url : String) (code : Nat)
  /-- Go `templates.Lookup("index.html.tpl").Execute(w, page)`. -/
  | index (page : indexPage)
  /-- Go `templates.Lookup("registered.html.tpl").Execute(w, page)`. -/
  | registered (page : registeredCallbackPage)
  /-- Go `http.NotFound(w, r)`. -/
  | notFound
  deriving DecidableEq, Repr

/-- Go `indexHandler` (GET /). -/
def indexHandler (env : Env) (servercfg : serverConfig) (_r : Request) (w : World) :
    Reply × World :=
  let fetched := fetchInstalledDetails env servercfg w.appcfg w
  let installedcfg := fetched.1.1
  let w1 := fetched.2
  let registerURL := buildGitHubURL servercfg.CreateAppPath servercfg
  let installURL := buildGitHubURL
    (env.sprintf servercfg.InstallPath [servercfg.GitHubAppsPrefix, w1.appcfg.Slug]) servercfg
  (.index ⟨"Register your application", registerURL, installURL, installedcfg, w1.appcfg,
    servercfg⟩, w1)

/-- The end of `registerCallbackHandler`, reached when no exchange was needed or
the exchange went through: the registered page. -/
def registeredReply (env : Env) (servercfg : serverConfig) (code : String) (w : World) : Reply :=
  let installURL := buildGitHubURL
    (env.sprintf servercfg.InstallPath [servercfg.GitHubAppsPrefix, w.appcfg.Slug]) servercfg
  .registered ⟨"GitHub App registered", code, installURL, w.appcfg, servercfg⟩

/-- Go `registerCallbackHandler` (GET /registered?code=...). -/
def registerCallbackHandler (env : Env) (servercfg : serverConfig) (r : Request) (w : World) :
    Reply × World :=
  let code := r.queryGet "code"
  if code ≠ "" ∧ w.appcfg.AppID = "" then
    match fetchAppRegistration env servercfg code w with
    | ((_, some _), w1) => (.redirect "/" 302, w1)
    | ((cfg, none), w1) =>
      let w2 := { w1 with appcfg := cfg }
      let w3 := (writeAppConfig env cfg w2).2
      (registeredReply env servercfg code w3, w3)
  else
    (registeredReply env servercfg code w, w)

/-- Go `installCallbackHandler` (GET /installed?installation_id=...). -/
def installCallbackHandler (env : Env) (_servercfg : serverConfig) (r : Request) (w : World) :
    Reply × World :=
  let installationIDStr := r.queryGet "installation_id"
  match Atoi installationIDStr with
  | (_, some _) => (.redirect "/registered" 302, w)
  | (installationID, none) =>
    let w1 := { w with appcfg := { w.appcfg with InstallationID := installationID } }
    let w2 := (writeAppConfig env w1.appcfg w1).2
    (.redirect "/" 302, w2)

/-- Go `notFoundHandler` (GET /favicon.ico). -/
def notFoundHandler (_r : Request) (w : World) : Reply × World :=
  (.notFound, w)

/-- The routes set up in `main`: three exact paths, and `/` for every other path. -/
def serve (env : Env) (servercfg : serverConfig) (r : Request) (w : World) : Reply × World :=
  if r.Path = "/favicon.ico" then notFoundHandler r w
  else if r.Path = "/registered" then registerCallbackHandler env servercfg r w
  else if r.Path = "/installed" then installCallbackHandler env servercfg r w
  else indexHandler env servercfg r w

/-- The state after a sequence of requests, each handled in its own environment. -/
def run (servercfg : serverConfig) : World → List (Env × Request) → World
  | w, [] => w
  | w, (env, r) :: rest => run servercfg (serve env servercfg r w).2 rest

/-! ## Vocabulary of the statements -/

/-- The text `s` occurs in the text `t`. -/
def Occurs (s t : String) : Prop := s.data <:+: t.data

instance (s t : String) : Decidable (Occurs s t) := by
  unfold Occurs; infer_instance

/-- The three GitHub calls that hand back the response body as a string. -/
inductive BodyCall where
  | fetchApp (cfg : appConfig)
  | fetchAccessToken (cfg : appConfig)
  | fetchInstallationRepos (tok : accessToken)

/-- The call itself. -/
def BodyCall.run (c : BodyCall) (env : Env) (servercfg : serverConfig) (w : World) :
    (String × Option GoError) × World :=
  match c with
  | .fetchApp cfg => ManifestFlow.fetchApp env servercfg cfg w
  | .fetchAccessToken cfg => ManifestFlow.fetchAccessToken env servercfg cfg w
  | .fetchInstallationRepos tok => ManifestFlow.fetchInstallationRepos env servercfg tok w

/-- The status code each call expects. -/
def BodyCall.expected : BodyCall → Int
  | .fetchApp _ => 200
  | .fetchAccessToken _ => 201
  | .fetchInstallationRepos _ => 200

/-- The invariant of the data model: an installation id is recorded only for a
registered app. -/
def InstalledOnlyIfRegistered (c : appConfig) : Prop :=
  c.InstallationID ≠ 0 → c.AppID ≠ ""

instance (c : appConfig) : Decidable (InstalledOnlyIfRegistered c) := by
  unfold InstalledOnlyIfRegistered; infer_instance

/-- Every manifest exchange of the sequence that succeeds (a request to
`/registered` with a code, arriving when AppID is empty, for which
`fetchAppRegistration` returns a nil error) returns a configuration that
satisfies the invariant. -/
def ExchangesRegistered (servercfg : serverConfig) : World → List (Env × Request) → Prop
  | _, [] => True
  | w, (env, r) :: rest =>
    (r.Path = "/registered" → r.queryGet "code" ≠ "" → w.appcfg.AppID = "" →
      ∀ cfg : appConfig,
        (fetchAppRegistration env servercfg (r.queryGet "code") w).1 = (cfg, none) →
        InstalledOnlyIfRegistered cfg)
      ∧ ExchangesRegistered servercfg (serve env servercfg r w).2 rest

/-- Every request to `/installed` of the sequence arrives when the app is registered. -/
def InstallsAfterRegistration (servercfg : serverConfig) : World → List (Env × Request) → Prop
  | _, [] => True
  | w, (env, r) :: rest =>
    (r.Path = "/installed" → w.appcfg.AppID ≠ "")
      ∧ InstallsAfterRegistration servercfg (serve env servercfg r w).2 rest

/-- The calls to GitHub leave the configuration and the files alone. -/
def SameStore (w w1 : World) : Prop :=
  w1.appcfg = w.appcfg ∧ w1.files = w.files ∧ w1.writes = w.writes

/-! ## Sample inputs -/

/-- Sample `fmt.Sprintf` for formats whose only verb is `%s`. -/
def sprintfS : List Char → List String → List Char
  | [], _ => []
  | [c], _ => [c]
  | c :: d :: rest, args =>
    if c = '%' ∧ d = 's' then
      match args with
      | [] => c :: sprintfS (d :: rest) args
      | a :: more => a.data ++ sprintfS rest more
    else c :: sprintfS (d :: rest) args

/-- An environment in which every library call succeeds and GitHub answers as
`roundTrip` says. -/
def sampleEnv (roundTrip : Nat → HTTPRequest → Except GoError HTTPResponse) : Env where
  now := fun _ => ⟨1700000000123456789⟩
  parseRSAPrivateKeyFromPEM := fun pem =>
    if pem = "" then .error "Invalid Key: Key must be PEM encoded PKCS1 or PKCS8 private key"
    else .ok pem
  claimsValid := fun _ => none
  signedString := fun _ _ => ("signed", none)
  newRequest := fun _ _ => none
  roundTrip := roundTrip
  jsonDecodeAppConfig := fun res cfg =>
    if res.Body = "app" then ({ cfg with AppID := "Iv1.abc", PEM := "key", ID := 7, Slug := "demo" }, none)
    else (cfg, some "invalid character")
  jsonUnmarshalAccessToken := fun data tok =>
    if data = "token" then ({ tok with Token := "v1.tok" }, none)
    else (tok, some "invalid character")
  jsonMarshalManifest := fun m => ("json " ++ m.RedirectURL ++ " " ++ m.SetupURL, none)
  yamlMarshalAppConfig := fun cfg =>
    (String.intercalate "\n" ["app_id: " ++ cfg.AppID, "app_secret: " ++ cfg.AppSecret,
      "pem: " ++ cfg.PEM, "id: " ++ toString cfg.ID, "node_id: " ++ cfg.NodeID,
      "slug: " ++ cfg.Slug, "installation_id: " ++ toString cfg.InstallationID], none)
  yamlUnmarshalAppConfig := fun data cfg =>
    if data = "app_id: Iv1.abc\napp_secret: \npem: key\nid: 7\nnode_id: \nslug: demo\ninstallation_id: 42"
    then
      ({ cfg with AppID := "Iv1.abc", AppSecret := "", PEM := "key", ID := 7, NodeID := "",
                  Slug := "demo", InstallationID := 42 }, none)
    else if data = "app_id: Iv1.abc\napp_secret: \npem: key\nid: 7\nnode_id: \nslug: demo\ninstallation_id: 0"
    then
      ({ cfg with AppID := "Iv1.abc", AppSecret := "", PEM := "key", ID := 7, NodeID := "",
                  Slug := "demo", InstallationID := 0 }, none)
    else (cfg, some "yaml: unmarshal errors")
  yamlUnmarshalManifest := fun data man =>
    if data = "name: demo" then ({ man with Name := "demo", RedirectURL := "http://old/r" }, none)
    else (man, some "yaml: unmarshal errors")
  yamlUnmarshalServerConfig := fun _ cfg => (cfg, none)
  writeFault := fun _ _ => none
  sprintf := fun format args => ⟨sprintfS format.data args⟩

/-- The server settings `loadServerConfig` starts from. -/
def sampleServer : serverConfig where
  Scheme := "http"
  Host := "localhost:5000"
  GitHubScheme := "https"
  GitHubHost := "github.com"
  GitHubAPIHost := "api.github.com"
  GitHubAppsPrefix := "apps"
  CreateAppPath := "/settings/apps/new"
  FetchRegistrationPath := "/app-manifests/%s/conversions"
  InstallPath := "/%s/%s/installations/new"

/-- GitHub answering every request with 404. -/
def answer404 : Nat → HTTPRequest → Except GoError HTTPResponse :=
  fun _ _ => .ok ⟨404, "404 Not Found", "bad code", none⟩

/-- A registered and installed app. -/
def sampleApp : appConfig where
  AppID := "Iv1.abc"
  PEM := "key"
  ID := 7
  Slug := "demo"
  InstallationID := 42

/-- GitHub accepting the app's JWT and creating a token, but with a token body
that is not the JSON of an access token. -/
def answerBadToken : Nat → HTTPRequest → Except GoError HTTPResponse :=
  fun _ req =>
    if req.Method = "POST" then .ok ⟨201, "201 Created", "not json", none⟩
    else if req.URL = "https://api.github.com/app" then .ok ⟨200, "200 OK", "app json", none⟩
    else .ok ⟨200, "200 OK", "repos json", none⟩

/-- GitHub accepting the manifest code. -/
def answerCreated : Nat → HTTPRequest → Except GoError HTTPResponse :=
  fun _ _ => .ok ⟨201, "201 Created", "app", none⟩

/-- An environment whose manifest exchange decodes a configuration with an
installation id and no client id. -/
def strayEnv : Env :=
  { sampleEnv answerCreated with
    jsonDecodeAppConfig := fun _ cfg => ({ cfg with InstallationID := 5 }, none) }

/-- A registered app that is not installed yet. -/
def registeredApp : appConfig where
  AppID := "Iv1.abc"
  PEM := "key"
  ID := 7
  Slug := "demo"

/-- The bytes the sample YAML library writes for `sampleApp`. -/
def sampleAppYAML : String :=
  "app_id: Iv1.abc\napp_secret: \npem: key\nid: 7\nnode_id: \nslug: demo\ninstallation_id: 42"

/-- The bytes the sample YAML library writes for `registeredApp`. -/
def registeredAppYAML : String :=
  "app_id: Iv1.abc\napp_secret: \npem: key\nid: 7\nnode_id: \nslug: demo\ninstallation_id: 0"

/-- GitHub answering 201 with a body that is not the JSON of an app. -/
def answerGarbage : Nat → HTTPRequest → Except GoError HTTPResponse :=
  fun _ _ => .ok ⟨201, "201 Created", "garbage", none⟩

/-- GitHub out of reach. -/
def answerRefused : Nat → HTTPRequest → Except GoError HTTPResponse :=
  fun _ _ => .error "dial tcp: connection refused"

/-- The registration callback as GitHub sends it. -/
def codeRequest : Request := ⟨"/registered", [("code", "c0de")]⟩

/-- The request the exchange of `codeRequest` sends. -/
def exchangeRequest : HTTPRequest :=
  ⟨"POST", "https://api.github.com/app-manifests/c0de/conversions",
    [("Content-Type", "application/json")]⟩

/-- A file system holding a manifest whose own callback URLs are stale. -/
def manifestWorld : World where
  files := fun path => if path = "config/manifest.yml" then some "name: demo" else none

/-- The sample environment on a file system that refuses every write and leaves
no file behind (the `config` directory is missing). -/
def noWriteEnv : Env :=
  { sampleEnv answer404 with
    writeFault := fun _ op => some ("open " ++ op.path ++ ": no such file or directory", none) }

/-- The bytes the sample YAML library writes for an app that has an installation
id 5 and nothing else. -/
def unregisteredYAML : String :=
  "app_id: \napp_secret: \npem: \nid: 0\nnode_id: \nslug: \ninstallation_id: 5"

/-- The sample environment on a file system where `config/app.yml` cannot be
written any more and keeps the content of the registered app. -/
def readOnlyEnv : Env :=
  { sampleEnv answer404 with
    writeFault := fun _ op =>
      some ("open " ++ op.path ++ ": permission denied", some registeredAppYAML) }

/-- The state of a registered app whose details are in `config/app.yml`. -/
def registeredWorld : World where
  appcfg := registeredApp
  files := fun path => if path = "config/app.yml" then some registeredAppYAML else none

/-- The sample environment with a GitHub that accepts the manifest code, on a
file system that refuses every write and leaves no file behind. -/
def noWriteCreatedEnv : Env :=
  { sampleEnv answerCreated with
    writeFault := fun _ op => some ("open " ++ op.path ++ ": no such file or directory", none) }

/-! ## Lemmas on texts -/

theorem occurs_self (s : String) : Occurs s s :=
  List.infix_refl _

theorem occurs_append_left {s t : String} (u : String) (h : Occurs s t) : Occurs s (t ++ u) := by
  unfold Occurs at *
  rw [String.data_append]
  exact h.trans (List.prefix_append t.data u.data).isInfix

theorem occurs_append_right {s t : String} (u : String) (h : Occurs s t) : Occurs s (u ++ t) := by
  unfold Occurs at *
  rw [String.data_append]
  exact h.trans (List.suffix_append u.data t.data).isInfix

/-! ## The GitHub calls on an unexpected status -/

theorem fetchApp_unexpected (env : Env) (servercfg : serverConfig) (cfg : appConfig) (w : World)
    (req : HTTPRequest) (res : HTTPResponse)
    (hsent : (fetchApp env servercfg cfg w).2.calls = w.calls ++ [req])
    (hres : env.roundTrip w.calls.length req = .ok res)
    (hcode : res.StatusCode ≠ 200) :
    (fetchApp env servercfg cfg w).1
      = (res.Body, some ("fetch app failed: " ++ res.Status ++ " (" ++ res.Body ++ ")")) := by
  unfold fetchApp at hsent ⊢
  cases hnew : env.newRequest "GET" (buildGitHubAPIURL "/app" servercfg) with
  | some err => simp [hnew] at hsent
  | none =>
    rcases hjwt : makejwt env cfg w with ⟨jwt, _ | err⟩
    · simp only [hnew, hjwt, send] at hsent ⊢
      generalize hreq : HTTPRequest.mk "GET" _ _ = req0 at hsent ⊢
      have hsame : req0 = req := by
        cases hrt : env.roundTrip w.calls.length req0 <;> simp [hrt] at hsent
        · exact hsent
        · split at hsent <;> simpa using hsent
      subst hsame
      simp [hres, hcode]
    · simp [hnew, hjwt] at hsent

theorem fetchAccessToken_unexpected (env : Env) (servercfg : serverConfig) (cfg : appConfig)
    (w : World) (req : HTTPRequest) (res : HTTPResponse)
    (hsent : (fetchAccessToken env servercfg cfg w).2.calls = w.calls ++ [req])
    (hres : env.roundTrip w.calls.length req = .ok res)
    (hcode : res.StatusCode ≠ 201) :
    (fetchAccessToken env servercfg cfg w).1
      = (res.Body, some ("fetch access token failed: " ++ res.Status ++ " (" ++ res.Body ++ ")")) := by
  unfold fetchAccessToken at hsent ⊢
  generalize buildGitHubAPIURL _ servercfg = url at hsent ⊢
  cases hnew : env.newRequest "POST" url with
  | some err => simp [hnew] at hsent
  | none =>
    rcases hjwt : makejwt env cfg w with ⟨jwt, _ | err⟩
    · simp only [hnew, hjwt, send] at hsent ⊢
      generalize hreq : HTTPRequest.mk "POST" _ _ = req0 at hsent ⊢
      have hsame : req0 = req := by
        cases hrt : env.roundTrip w.calls.length req0 <;> simp [hrt] at hsent
        · exact hsent
        · split at hsent <;> simpa using hsent
      subst hsame
      simp [hres, hcode]
    · simp [hnew, hjwt] at hsent

theorem fetchInstallationRepos_unexpected (env : Env) (servercfg : serverConfig)
    (tok : accessToken) (w : World) (req : HTTPRequest) (res : HTTPResponse)
    (hsent : (fetchInstallationRepos env servercfg tok w).2.calls = w.calls ++ [req])
    (hres : env.roundTrip w.calls.length req = .ok res)
    (hcode : res.StatusCode ≠ 200) :
    (fetchInstallationRepos env servercfg tok w).1
      = (res.Body,
          some ("fetch installation repos failed: " ++ res.Status ++ " (" ++ res.Body ++ ")")) := by
  unfold fetchInstallationRepos at hsent ⊢
  cases hnew : env.newRequest "GET" (buildGitHubAPIURL "/installation/repositories" servercfg) with
  | some err => simp [hnew] at hsent
  | none =>
    simp only [hnew, send] at hsent ⊢
    generalize hreq : HTTPRequest.mk "GET" _ _ = req0 at hsent ⊢
    have hsame : req0 = req := by
      cases hrt : env.roundTrip w.calls.length req0 <;> simp [hrt] at hsent
      · exact hsent
      · split at hsent <;> simpa using hsent
    subst hsame
    simp [hres, hcode]

theorem fetchAppRegistration_unexpected (env : Env) (servercfg : serverConfig) (code : String)
    (w : World) (req : HTTPRequest) (res : HTTPResponse)
    (hsent : (fetchAppRegistration env servercfg code w).2.calls = w.calls ++ [req])
    (hres : env.roundTrip w.calls.length req = .ok res)
    (hcode : res.StatusCode ≠ 201) :
    (fetchAppRegistration env servercfg code w).1
      = ({}, some ("fetch app registration failed: " ++ res.Status)) := by
  unfold fetchAppRegistration at hsent ⊢
  generalize buildGitHubAPIURL _ servercfg = url at hsent ⊢
  cases hnew : env.newRequest "POST" url with
  | some err => simp [hnew] at hsent
  | none =>
    simp only [hnew, send] at hsent ⊢
    generalize hreq : HTTPRequest.mk "POST" _ _ = req0 at hsent ⊢
    have hsame : req0 = req := by
      cases hrt : env.roundTrip w.calls.length req0 <;> simp [hrt] at hsent
      · exact hsent
      · split at hsent <;> simpa using hsent
    subst hsame
    simp [hres, hcode]

/-- C1, as amended. Whenever `fetchApp`, `fetchAccessToken` or
`fetchInstallationRepos` sends its request and GitHub answers with a status
code other than the expected one (200, 201, 200), the call returns the raw
response body as its string result together with an error whose text contains
both the response status and that body. `fetchAppRegistration` on a status
other than 201 returns the zero-value `appConfig` and the error
`fetch app registration failed: <status>`, which contains the status. -/
theorem github_call_unexpected_status (env : Env) (servercfg : serverConfig) (w : World)
    (req : HTTPRequest) (res : HTTPResponse)
    (hres : env.roundTrip w.calls.length req = .ok res) :
    (∀ c : BodyCall, (c.run env servercfg w).2.calls = w.calls ++ [req] →
      res.StatusCode ≠ c.expected →
      ∃ msg, (c.run env servercfg w).1 = (res.Body, some msg)
        ∧ Occurs res.Status msg ∧ Occurs res.Body msg)
    ∧ (∀ code : String, (fetchAppRegistration env servercfg code w).2.calls = w.calls ++ [req] →
      res.StatusCode ≠ 201 →
      ∃ msg, (fetchAppRegistration env servercfg code w).1 = ({}, some msg)
        ∧ msg = "fetch app registration failed: " ++ res.Status ∧ Occurs res.Status msg) := by
  have key : ∀ p : String,
      Occurs res.Status (p ++ res.Status ++ " (" ++ res.Body ++ ")")
      ∧ Occurs res.Body (p ++ res.Status ++ " (" ++ res.Body ++ ")") := fun p =>
    ⟨occurs_append_left _ (occurs_append_left _ (occurs_append_left _
        (occurs_append_right _ (occurs_self _)))),
      occurs_append_left _ (occurs_append_right _ (occurs_self _))⟩
  refine ⟨fun c hsent hcode => ?_, fun code hsent hcode => ?_⟩
  · cases c with
    | fetchApp cfg =>
      exact ⟨_, fetchApp_unexpected env servercfg cfg w req res hsent hres hcode,
        (key _).1, (key _).2⟩
    | fetchAccessToken cfg =>
      exact ⟨_, fetchAccessToken_unexpected env servercfg cfg w req res hsent hres hcode,
        (key _).1, (key _).2⟩
    | fetchInstallationRepos tok =>
      exact ⟨_, fetchInstallationRepos_unexpected env servercfg tok w req res hsent hres hcode,
        (key _).1, (key _).2⟩
  · exact ⟨_, fetchAppRegistration_unexpected env servercfg code w req res hsent hres hcode,
      rfl, occurs_append_right _ (occurs_self _)⟩

/-- C1, at a concrete input: GitHub answers 404 to `fetchApp` and to
`fetchAppRegistration`. -/
theorem github_call_unexpected_status_witness :
    (∃ msg, (fetchApp (sampleEnv answer404) sampleServer sampleApp {}).1 = ("bad code", some msg)
      ∧ Occurs "404 Not Found" msg ∧ Occurs "bad code" msg)
    ∧ (∃ msg, (fetchAppRegistration (sampleEnv answer404) sampleServer "c0de" {}).1
        = ({}, some msg)
      ∧ msg = "fetch app registration failed: " ++ "404 Not Found"
      ∧ Occurs "404 Not Found" msg) :=
  ⟨(github_call_unexpected_status (sampleEnv answer404) sampleServer {}
      ⟨"GET", "https://api.github.com/app",
        [("Accept", "application/vnd.github.machine-man-preview+json"),
          ("Authorization", "Bearer signed")]⟩
      ⟨404, "404 Not Found", "bad code", none⟩ rfl).1
      (.fetchApp sampleApp) (by decide) (by decide),
    (github_call_unexpected_status (sampleEnv answer404) sampleServer {}
      ⟨"POST", "https://api.github.com/app-manifests/c0de/conversions",
        [("Content-Type", "application/json")]⟩
      ⟨404, "404 Not Found", "bad code", none⟩ rfl).2
      "c0de" (by decide) (by decide)⟩

/-- C1, as stated, fails for `fetchAppRegistration`: on a 404 answer whose body is
`bad code` the error is `fetch app registration failed: 404 Not Found`, in which
the body does not occur, and the value returned with it is the zero-value
`appConfig`, none of whose fields holds the body. -/
theorem fetchAppRegistration_drops_body :
    (sampleEnv answer404).roundTrip 0
        ⟨"POST", "https://api.github.com/app-manifests/c0de/conversions",
          [("Content-Type", "application/json")]⟩
      = .ok ⟨404, "404 Not Found", "bad code", none⟩
    ∧ (fetchAppRegistration (sampleEnv answer404) sampleServer "c0de" {}).2.calls
      = [⟨"POST", "https://api.github.com/app-manifests/c0de/conversions",
          [("Content-Type", "application/json")]⟩]
    ∧ (fetchAppRegistration (sampleEnv answer404) sampleServer "c0de" {}).1
      = ({}, some "fetch app registration failed: 404 Not Found")
    ∧ ¬ Occurs "bad code" "fetch app registration failed: 404 Not Found" := by
  refine ⟨rfl, ?_, ?_, ?_⟩ <;> decide

/-! ## What the calls leave alone -/

theorem sameStore_refl (w : World) : SameStore w w := ⟨rfl, rfl, rfl⟩

theorem sameStore_trans {w w1 w2 : World} (h1 : SameStore w w1) (h2 : SameStore w1 w2) :
    SameStore w w2 :=
  ⟨h2.1.trans h1.1, h2.2.1.trans h1.2.1, h2.2.2.trans h1.2.2⟩

theorem fetchAppRegistration_sameStore (env : Env) (servercfg : serverConfig) (code : String)
    (w : World) : SameStore w (fetchAppRegistration env servercfg code w).2 := by
  unfold fetchAppRegistration send SameStore
  simp only []
  generalize env.roundTrip _ _ = out
  cases env.newRequest "POST" _ with
  | some err => simp
  | none =>
    simp only []
    cases out with
    | error err => simp
    | ok res => simp only []; split <;> simp

theorem fetchApp_sameStore (env : Env) (servercfg : serverConfig) (cfg : appConfig) (w : World) :
    SameStore w (fetchApp env servercfg cfg w).2 := by
  unfold fetchApp send SameStore
  simp only []
  generalize env.roundTrip _ = rt
  cases env.newRequest "GET" (buildGitHubAPIURL "/app" servercfg) with
  | some err => simp
  | none =>
    rcases makejwt env cfg w with ⟨jwt, _ | err⟩
    · simp only []
      cases rt _ with
      | error err => simp
      | ok res => simp only []; split <;> simp
    · simp

theorem fetchAccessToken_sameStore (env : Env) (servercfg : serverConfig) (cfg : appConfig)
    (w : World) : SameStore w (fetchAccessToken env servercfg cfg w).2 := by
  unfold fetchAccessToken send SameStore
  simp only []
  generalize env.roundTrip _ = rt
  generalize buildGitHubAPIURL _ servercfg = url
  cases env.newRequest "POST" url with
  | some err => simp
  | none =>
    rcases makejwt env cfg w with ⟨jwt, _ | err⟩
    · simp only []
      cases rt _ with
      | error err => simp
      | ok res => simp only []; split <;> simp
    · simp

theorem fetchInstallationRepos_sameStore (env : Env) (servercfg : serverConfig)
    (tok : accessToken) (w : World) :
    SameStore w (fetchInstallationRepos env servercfg tok w).2 := by
  unfold fetchInstallationRepos send SameStore
  simp only []
  generalize env.roundTrip _ = rt
  cases env.newRequest "GET" (buildGitHubAPIURL "/installation/repositories" servercfg) with
  | some err => simp
  | none =>
    simp only []
    cases rt _ with
    | error err => simp
    | ok res => simp only []; split <;> simp

theorem fetchInstalledDetails_sameStore (env : Env) (servercfg : serverConfig)
    (appcfg : appConfig) (w : World) :
    SameStore w (fetchInstalledDetails env servercfg appcfg w).2 := by
  unfold fetchInstalledDetails
  split
  · exact sameStore_refl w
  split
  · exact sameStore_refl w
  have h1 := fetchApp_sameStore env servercfg appcfg w
  split
  · next heq => rw [heq] at h1; exact h1
  · next heq =>
    rw [heq] at h1
    rename_i w1
    have h2 := fetchAccessToken_sameStore env servercfg appcfg w1
    split
    · next heq2 => rw [heq2] at h2; exact sameStore_trans h1 h2
    · next heq2 =>
      rw [heq2] at h2
      rename_i w2
      have h3 : ∀ tok out, fetchInstallationRepos env servercfg tok w2 = out →
          SameStore w2 out.2 :=
        fun tok out h => h ▸ fetchInstallationRepos_sameStore env servercfg tok w2
      simp only []
      split
      · next heq3 => exact sameStore_trans h1 (sameStore_trans h2 (h3 _ _ heq3))
      · next heq3 => exact sameStore_trans h1 (sameStore_trans h2 (h3 _ _ heq3))

theorem writeAppConfig_appcfg (env : Env) (cfg : appConfig) (w : World) :
    (writeAppConfig env cfg w).2.appcfg = w.appcfg := by
  unfold writeAppConfig writeFile
  rcases env.yamlMarshalAppConfig cfg with ⟨b, _ | err⟩
  · simp only []
    generalize env.writeFault _ _ = fault
    rcases fault with _ | ⟨err, left⟩ <;> rfl
  · rfl

/-! ## The handlers and the shared configuration -/

theorem fetchAppRegistration_success (env : Env) (servercfg : serverConfig) (code : String)
    (w : World) (cfg : appConfig)
    (h : (fetchAppRegistration env servercfg code w).1 = (cfg, none)) :
    ∃ res, env.roundTrip w.calls.length
        ⟨"POST", buildGitHubAPIURL (env.sprintf servercfg.FetchRegistrationPath [code]) servercfg,
          [("Content-Type", "application/json")]⟩ = .ok res
      ∧ res.StatusCode = 201 ∧ env.jsonDecodeAppConfig res {} = (cfg, none) := by
  unfold fetchAppRegistration send at h
  simp only [] at h
  generalize env.roundTrip _ _ = out at h ⊢
  cases hnew : env.newRequest "POST"
      (buildGitHubAPIURL (env.sprintf servercfg.FetchRegistrationPath [code]) servercfg) with
  | some err => simp [hnew] at h
  | none =>
    simp only [hnew] at h
    cases out with
    | error err => simp at h
    | ok res =>
      simp only [] at h
      split at h
      · simp at h
      · next hcode => exact ⟨res, rfl, by simpa using hcode, h⟩

theorem fetchAppRegistration_calls (env : Env) (servercfg : serverConfig) (code : String)
    (w : World)
    (hnew : env.newRequest "POST"
      (buildGitHubAPIURL (env.sprintf servercfg.FetchRegistrationPath [code]) servercfg) = none) :
    (fetchAppRegistration env servercfg code w).2.calls
      = w.calls ++ [⟨"POST",
          buildGitHubAPIURL (env.sprintf servercfg.FetchRegistrationPath [code]) servercfg,
          [("Content-Type", "application/json")]⟩] := by
  unfold fetchAppRegistration send
  simp only [hnew]
  generalize env.roundTrip _ _ = out
  cases out with
  | error err => rfl
  | ok res => simp only []; split <;> rfl

theorem fetchAppRegistration_unbuilt (env : Env) (servercfg : serverConfig) (code : String)
    (w : World) (err : GoError)
    (hnew : env.newRequest "POST"
      (buildGitHubAPIURL (env.sprintf servercfg.FetchRegistrationPath [code]) servercfg)
        = some err) :
    fetchAppRegistration env servercfg code w = (({}, some err), w) := by
  unfold fetchAppRegistration
  simp only [hnew]

theorem writeAppConfig_calls (env : Env) (cfg : appConfig) (w : World) :
    (writeAppConfig env cfg w).2.calls = w.calls := by
  unfold writeAppConfig writeFile
  rcases env.yamlMarshalAppConfig cfg with ⟨b, _ | err⟩
  · simp only []
    generalize env.writeFault _ _ = fault
    rcases fault with _ | ⟨err, left⟩ <;> rfl
  · rfl

theorem registerCallbackHandler_appcfg (env : Env) (servercfg : serverConfig) (r : Request)
    (w : World) :
    (registerCallbackHandler env servercfg r w).2.appcfg = w.appcfg
    ∨ (r.queryGet "code" ≠ "" ∧ w.appcfg.AppID = ""
      ∧ ∃ cfg, (fetchAppRegistration env servercfg (r.queryGet "code") w).1 = (cfg, none)
        ∧ (registerCallbackHandler env servercfg r w).2.appcfg = cfg) := by
  unfold registerCallbackHandler
  simp only []
  split
  · next hguard =>
    have hsame := fetchAppRegistration_sameStore env servercfg (r.queryGet "code") w
    split
    · next heq => rw [heq] at hsame; exact Or.inl hsame.1
    · next cfg w1 heq =>
      exact Or.inr ⟨hguard.1, hguard.2, cfg, by rw [heq], writeAppConfig_appcfg _ _ _⟩
  · exact Or.inl rfl

theorem installCallbackHandler_appID (env : Env) (servercfg : serverConfig) (r : Request)
    (w : World) :
    (installCallbackHandler env servercfg r w).2.appcfg.AppID = w.appcfg.AppID := by
  unfold installCallbackHandler
  simp only []
  split
  · rfl
  · rw [writeAppConfig_appcfg]

theorem indexHandler_sameStore (env : Env) (servercfg : serverConfig) (r : Request) (w : World) :
    SameStore w (indexHandler env servercfg r w).2 :=
  fetchInstalledDetails_sameStore env servercfg w.appcfg w

theorem serve_keeps_invariant (env : Env) (servercfg : serverConfig) (r : Request) (w : World)
    (hinv : InstalledOnlyIfRegistered w.appcfg)
    (hexch : r.Path = "/registered" → r.queryGet "code" ≠ "" → w.appcfg.AppID = "" →
      ∀ cfg : appConfig,
        (fetchAppRegistration env servercfg (r.queryGet "code") w).1 = (cfg, none) →
        InstalledOnlyIfRegistered cfg)
    (hord : r.Path = "/installed" → w.appcfg.AppID ≠ "") :
    InstalledOnlyIfRegistered (serve env servercfg r w).2.appcfg := by
  unfold serve
  split
  · exact hinv
  split
  · next hpath =>
    rcases registerCallbackHandler_appcfg env servercfg r w with h | ⟨hcode, hunreg, cfg, hok, h⟩
    · rw [h]; exact hinv
    · rw [h]; exact hexch hpath hcode hunreg cfg hok
  split
  · next hpath =>
    intro _
    rw [installCallbackHandler_appID]
    exact hord hpath
  · rw [(indexHandler_sameStore env servercfg r w).1]; exact hinv

/-! ## fetchInstalledDetails -/

/-- C2, at the failing input: the app is registered and installed, GitHub answers
200 to the app request, 201 with the body `not json` to the token request and
200 to the repository request. Parsing the token fails, yet the repository
request is sent after it (with an empty bearer token) and the error returned
is nil. -/
theorem fetchInstalledDetails_drops_token_parse_error :
    ((sampleEnv answerBadToken).jsonUnmarshalAccessToken "not json" {}).2
      = some "invalid character"
    ∧ (fetchInstalledDetails (sampleEnv answerBadToken) sampleServer sampleApp {}).1
      = ({ AppAuthedJSON := "app json", AccessTokenJSON := "not json", AccessToken := {},
           InstallationReposJSON := "repos json" }, none)
    ∧ (fetchInstalledDetails (sampleEnv answerBadToken) sampleServer sampleApp {}).2.calls
      = [⟨"GET", "https://api.github.com/app",
            [("Accept", "application/vnd.github.machine-man-preview+json"),
              ("Authorization", "Bearer signed")]⟩,
          ⟨"POST", "https://api.github.com/app/installations/42/access_tokens",
            [("Accept", "application/vnd.github.machine-man-preview+json"),
              ("Authorization", "Bearer signed")]⟩,
          ⟨"GET", "https://api.github.com/installation/repositories",
            [("Accept", "application/vnd.github.machine-man-preview+json"),
              ("Authorization", "Bearer ")]⟩] := by
  refine ⟨?_, ?_, ?_⟩ <;> decide

/-! ## Registration before installation -/

/-- What keeps the invariant. From a state that satisfies it (the zero value
does), "InstallationID is non-zero only if AppID is non-empty" holds after
every sequence of requests in which each request to `/installed` arrives when
AppID is non-empty and each manifest exchange that succeeds returns a
configuration that satisfies the invariant. The handlers check neither. -/
theorem installed_only_if_registered (servercfg : serverConfig) (evs : List (Env × Request))
    (w : World) (hinit : InstalledOnlyIfRegistered w.appcfg)
    (hexch : ExchangesRegistered servercfg w evs)
    (hord : InstallsAfterRegistration servercfg w evs) :
    InstalledOnlyIfRegistered (run servercfg w evs).appcfg := by
  induction evs generalizing w with
  | nil => exact hinit
  | cons e rest ih =>
    obtain ⟨env, r⟩ := e
    have hstep := serve_keeps_invariant env servercfg r w hinit hexch.1 hord.1
    exact ih (serve env servercfg r w).2 hstep hexch.2 hord.2

/-- The invariant kept at a concrete input: from the zero value, a registration
callback whose exchange succeeds, then an install callback with installation
id 42. -/
theorem installed_only_if_registered_witness :
    InstalledOnlyIfRegistered ({} : World).appcfg
    ∧ ExchangesRegistered sampleServer {}
        [(sampleEnv answerCreated, ⟨"/registered", [("code", "c0de")]⟩),
          (sampleEnv answerCreated, ⟨"/installed", [("installation_id", "42")]⟩)]
    ∧ InstallsAfterRegistration sampleServer {}
        [(sampleEnv answerCreated, ⟨"/registered", [("code", "c0de")]⟩),
          (sampleEnv answerCreated, ⟨"/installed", [("installation_id", "42")]⟩)]
    ∧ InstalledOnlyIfRegistered (run sampleServer {}
        [(sampleEnv answerCreated, ⟨"/registered", [("code", "c0de")]⟩),
          (sampleEnv answerCreated, ⟨"/installed", [("installation_id", "42")]⟩)]).appcfg
    ∧ (run sampleServer {}
        [(sampleEnv answerCreated, ⟨"/registered", [("code", "c0de")]⟩),
          (sampleEnv answerCreated, ⟨"/installed", [("installation_id", "42")]⟩)]).appcfg
      = { AppID := "Iv1.abc", PEM := "key", ID := 7, Slug := "demo", InstallationID := 42 } := by
  have hord : InstallsAfterRegistration sampleServer {}
      [(sampleEnv answerCreated, ⟨"/registered", [("code", "c0de")]⟩),
        (sampleEnv answerCreated, ⟨"/installed", [("installation_id", "42")]⟩)] :=
    ⟨by decide, by decide, trivial⟩
  have hfetch : (fetchAppRegistration (sampleEnv answerCreated) sampleServer "c0de" {}).1
      = (registeredApp, none) := by decide
  have hexch : ExchangesRegistered sampleServer {}
      [(sampleEnv answerCreated, ⟨"/registered", [("code", "c0de")]⟩),
        (sampleEnv answerCreated, ⟨"/installed", [("installation_id", "42")]⟩)] := by
    refine ⟨fun _ _ _ cfg hok => ?_, fun hpath => ?_, trivial⟩
    · have hcfg : (registeredApp, (none : Option GoError)) = (cfg, none) :=
        hfetch.symm.trans hok
      have hsame : registeredApp = cfg := congrArg Prod.fst hcfg
      rw [← hsame]
      decide
    · exact absurd hpath (by decide)
  exact ⟨by decide, hexch, hord,
    installed_only_if_registered sampleServer _ {} (by decide) hexch hord,
    by decide⟩

/-- C3, at the failing input: the server starts unregistered (the zero-value
AppConfig, no `config/app.yml`) and receives `GET /installed?installation_id=5`.
The install callback does not look at AppID: it answers 302 to `/`, the shared
AppConfig has InstallationID 5 with an empty AppID, and `config/app.yml` is
created for an app that is not registered. -/
theorem install_callback_before_registration :
    (Atoi "5" = (5, none) ∧ ({} : World).appcfg = {}
      ∧ ({} : World).files "config/app.yml" = none)
    ∧ (serve (sampleEnv answer404) sampleServer
        ⟨"/installed", [("installation_id", "5")]⟩ {}).1 = .redirect "/" 302
    ∧ (run sampleServer {}
        [(sampleEnv answer404, ⟨"/installed", [("installation_id", "5")]⟩)]).appcfg
      = { AppID := "", InstallationID := 5 }
    ∧ ¬ InstalledOnlyIfRegistered (run sampleServer {}
        [(sampleEnv answer404, ⟨"/installed", [("installation_id", "5")]⟩)]).appcfg
    ∧ (run sampleServer {}
        [(sampleEnv answer404, ⟨"/installed", [("installation_id", "5")]⟩)]).writes
      = [⟨"config/app.yml", unregisteredYAML, 384⟩]
    ∧ (run sampleServer {}
        [(sampleEnv answer404, ⟨"/installed", [("installation_id", "5")]⟩)]).files
          "config/app.yml"
      = some unregisteredYAML := by
  refine ⟨⟨?_, ?_, ?_⟩, ?_, ?_, ?_, ?_, ?_⟩ <;> decide

/-- A manifest exchange that succeeds with a configuration holding an
installation id and no client id breaks the invariant as well: the
registration callback stores what the exchange returns. -/
theorem exchange_without_client_id :
    ¬ InstalledOnlyIfRegistered (run sampleServer {}
        [(strayEnv, ⟨"/registered", [("code", "c0de")]⟩)]).appcfg := by
  decide

/-! ## strconv.Atoi on decimal text -/

theorem digitVal_digitChar (m : Nat) (h : m < 10) : digitVal (Nat.digitChar m) = some m := by
  interval_cases m <;> decide

theorem digitChar_not_sign (m : Nat) (h : m < 10) :
    Nat.digitChar m ≠ '-' ∧ Nat.digitChar m ≠ '+' := by
  interval_cases m <;> decide

theorem parseDigits_toDigitsCore (n : Nat) : ∀ (fuel : Nat) (ds : List Char), n < fuel →
    ∃ k, ∀ acc, parseDigits acc (Nat.toDigitsCore 10 fuel n ds)
      = parseDigits (acc * 10 ^ k + n) ds := by
  induction n using Nat.strong_induction_on with
  | _ n ih =>
    intro fuel ds hfuel
    cases fuel with
    | zero => omega
    | succ fuel =>
      have hd := digitVal_digitChar (n % 10) (Nat.mod_lt _ (by decide))
      unfold Nat.toDigitsCore
      by_cases h0 : n / 10 = 0
      · refine ⟨1, fun acc => ?_⟩
        simp only [h0, if_true, parseDigits, hd]
        congr 1
        omega
      · obtain ⟨k, hk⟩ := ih (n / 10) (by omega) fuel (Nat.digitChar (n % 10) :: ds) (by omega)
        refine ⟨k + 1, fun acc => ?_⟩
        simp only [h0, if_false, hk, parseDigits, hd]
        congr 1
        have hpow : acc * 10 ^ (k + 1) = acc * 10 ^ k * 10 := by rw [pow_succ, Nat.mul_assoc]
        rw [hpow]
        generalize acc * 10 ^ k = x
        omega

theorem toDigitsCore_head (fuel : Nat) : ∀ (n : Nat) (ds : List Char),
    ∃ m, m < 10 ∧ ∃ tl, Nat.toDigitsCore 10 (fuel + 1) n ds = Nat.digitChar m :: tl := by
  induction fuel with
  | zero =>
    intro n ds
    refine ⟨n % 10, Nat.mod_lt _ (by decide), ?_⟩
    unfold Nat.toDigitsCore
    by_cases h0 : n / 10 = 0
    · exact ⟨ds, by simp [h0]⟩
    · exact ⟨ds, by simp [h0, Nat.toDigitsCore]⟩
  | succ fuel ih =>
    intro n ds
    unfold Nat.toDigitsCore
    by_cases h0 : n / 10 = 0
    · exact ⟨n % 10, Nat.mod_lt _ (by decide), ds, by simp [h0]⟩
    · simp only [h0, if_false]
      exact ih _ _


theorem parseDigits_toDigits (n : Nat) : parseDigits 0 (Nat.toDigits 10 n) = some n := by
  obtain ⟨k, hk⟩ := parseDigits_toDigitsCore n (n + 1) [] (Nat.lt_succ_self n)
  unfold Nat.toDigits
  rw [hk 0]
  simp [parseDigits]

theorem toDigits_head (n : Nat) :
    ∃ c tl, Nat.toDigits 10 n = c :: tl ∧ c ≠ '-' ∧ c ≠ '+' := by
  obtain ⟨m, hm, tl, h⟩ := toDigitsCore_head n n []
  exact ⟨_, tl, h, digitChar_not_sign m hm⟩

/-- The decimal text of every Go `int` reads back as that `int`: for every
integer `N` in the 64-bit range the query value written `N` is one that
`strconv.Atoi` accepts with value `N`. -/
theorem Atoi_toString (N : Int) (hlo : -(2 ^ 63 : Int) ≤ N) (hhi : N < 2 ^ 63) :
    Atoi (toString N) = (N, none) := by
  cases N with
  | ofNat m =>
    obtain ⟨c, tl, hc, h1, h2⟩ := toDigits_head m
    have hp := parseDigits_toDigits m
    have hdata : (toString (Int.ofNat m)).data = Nat.toDigits 10 m := rfl
    unfold Atoi
    simp only [hdata]
    rw [hc] at hp ⊢
    have hm : m < 9223372036854775808 := by
      simp only [Int.ofNat_eq_coe] at hhi
      omega
    simp [h1, h2, hp, hm]
  | negSucc m =>
    obtain ⟨c, tl, hc, h1, h2⟩ := toDigits_head (m + 1)
    have hp := parseDigits_toDigits (m + 1)
    have hdata : (toString (Int.negSucc m)).data = '-' :: Nat.toDigits 10 (m + 1) := rfl
    unfold Atoi
    simp only [hdata]
    rw [hc] at hp ⊢
    have hm : m ≤ 9223372036854775807 := by
      rw [Int.negSucc_eq] at hlo
      omega
    simp [hp, hm, Int.negSucc_eq]

/-! ## The install callback -/

/-- What the install callback does for every query value that `strconv.Atoi`
reads as the integer `N` (the decimal text of every 64-bit `N` is one, by
`Atoi_toString`) and every state with a non-empty AppID: it answers with a
302 redirect to `/`, sets InstallationID to `N` and leaves every other field
of the shared AppConfig as it was, and hands the YAML of the updated
AppConfig to `ioutil.WriteFile` for `config/app.yml` with mode 0600. When
that write goes through, the file holds those bytes and a following
`loadAppConfig` returns what the YAML library reads from them. -/
theorem install_callback_sets_installation_id (env : Env) (servercfg : serverConfig)
    (r : Request) (w : World) (N : Int)
    (hid : Atoi (r.queryGet "installation_id") = (N, none))
    (_hreg : w.appcfg.AppID ≠ "") :
    (installCallbackHandler env servercfg r w).1 = .redirect "/" 302
    ∧ (installCallbackHandler env servercfg r w).2.appcfg
      = { w.appcfg with InstallationID := N }
    ∧ (installCallbackHandler env servercfg r w).2.calls = w.calls
    ∧ ∀ b : String, env.yamlMarshalAppConfig { w.appcfg with InstallationID := N } = (b, none) →
        (installCallbackHandler env servercfg r w).2.writes
          = w.writes ++ [⟨appCfgPath, b, 384⟩]
        ∧ (env.writeFault w.writes.length ⟨appCfgPath, b, 384⟩ = none →
            (installCallbackHandler env servercfg r w).2.files appCfgPath = some b
            ∧ loadAppConfig env (installCallbackHandler env servercfg r w).2
              = env.yamlUnmarshalAppConfig b {}) := by
  unfold installCallbackHandler
  simp only [hid]
  refine ⟨trivial, writeAppConfig_appcfg _ _ _, ?_, ?_⟩
  · unfold writeAppConfig writeFile
    rcases env.yamlMarshalAppConfig _ with ⟨b, _ | err⟩
    · simp only []
      generalize env.writeFault _ _ = fault
      rcases fault with _ | ⟨err, left⟩ <;> rfl
    · rfl
  · intro b hyaml
    unfold writeAppConfig writeFile
    simp only [hyaml]
    refine ⟨?_, ?_⟩
    · generalize env.writeFault _ _ = fault
      rcases fault with _ | ⟨err, left⟩ <;> rfl
    · intro hwrite
      simp only [hwrite]
      refine ⟨by simp, ?_⟩
      unfold loadAppConfig readFile
      simp

/-- The install callback at a concrete input: a registered app and
`installation_id=42`, on a file system that takes the write. -/
theorem install_callback_sets_installation_id_witness :
    Atoi (Request.queryGet ⟨"/installed", [("installation_id", "42")]⟩ "installation_id")
      = (42, none)
    ∧ (installCallbackHandler (sampleEnv answer404) sampleServer
        ⟨"/installed", [("installation_id", "42")]⟩ { appcfg := registeredApp }).1
      = .redirect "/" 302
    ∧ (installCallbackHandler (sampleEnv answer404) sampleServer
        ⟨"/installed", [("installation_id", "42")]⟩ { appcfg := registeredApp }).2.appcfg
      = sampleApp
    ∧ (installCallbackHandler (sampleEnv answer404) sampleServer
        ⟨"/installed", [("installation_id", "42")]⟩ { appcfg := registeredApp }).2.writes
      = [⟨"config/app.yml", sampleAppYAML, 384⟩]
    ∧ (installCallbackHandler (sampleEnv answer404) sampleServer
        ⟨"/installed", [("installation_id", "42")]⟩ { appcfg := registeredApp }).2.files
          "config/app.yml"
      = some sampleAppYAML
    ∧ loadAppConfig (sampleEnv answer404)
        (installCallbackHandler (sampleEnv answer404) sampleServer
          ⟨"/installed", [("installation_id", "42")]⟩ { appcfg := registeredApp }).2
      = (sampleApp, none) := by
  have h := install_callback_sets_installation_id (sampleEnv answer404) sampleServer
    ⟨"/installed", [("installation_id", "42")]⟩ { appcfg := registeredApp } 42
    (by decide) (by decide)
  have hw := h.2.2.2 sampleAppYAML (by decide)
  have hf := hw.2 (by decide)
  exact ⟨by decide, h.1, h.2.1, hw.1, hf.1, hf.2.trans (by decide)⟩

/-- C4, at the failing input: a registered app whose details are in
`config/app.yml` receives `GET /installed?installation_id=42` when the file
cannot be written any more. `ioutil.WriteFile` fails, the handler answers 302
to `/` all the same with InstallationID 42 in memory, the file keeps its old
content, and the following `loadAppConfig` returns InstallationID 0, not 42. -/
theorem install_callback_hides_write_failure :
    (Atoi (Request.queryGet ⟨"/installed", [("installation_id", "42")]⟩ "installation_id")
        = (42, none)
      ∧ registeredWorld.appcfg.AppID ≠ ""
      ∧ loadAppConfig readOnlyEnv registeredWorld = (registeredApp, none))
    ∧ (writeFile readOnlyEnv "config/app.yml" sampleAppYAML 384 registeredWorld).1
      = some "open config/app.yml: permission denied"
    ∧ (installCallbackHandler readOnlyEnv sampleServer
        ⟨"/installed", [("installation_id", "42")]⟩ registeredWorld).1
      = .redirect "/" 302
    ∧ (installCallbackHandler readOnlyEnv sampleServer
        ⟨"/installed", [("installation_id", "42")]⟩ registeredWorld).2.appcfg.InstallationID
      = 42
    ∧ (installCallbackHandler readOnlyEnv sampleServer
        ⟨"/installed", [("installation_id", "42")]⟩ registeredWorld).2.writes
      = [⟨"config/app.yml", sampleAppYAML, 384⟩]
    ∧ (installCallbackHandler readOnlyEnv sampleServer
        ⟨"/installed", [("installation_id", "42")]⟩ registeredWorld).2.files "config/app.yml"
      = some registeredAppYAML
    ∧ loadAppConfig readOnlyEnv (installCallbackHandler readOnlyEnv sampleServer
        ⟨"/installed", [("installation_id", "42")]⟩ registeredWorld).2
      = (registeredApp, none)
    ∧ (loadAppConfig readOnlyEnv (installCallbackHandler readOnlyEnv sampleServer
        ⟨"/installed", [("installation_id", "42")]⟩ registeredWorld).2).1.InstallationID
      = 0 := by
  refine ⟨⟨?_, ?_, ?_⟩, ?_, ?_, ?_, ?_, ?_, ?_, ?_⟩ <;> decide

/-- C5. For every `installation_id` query value that `strconv.Atoi` rejects, the
handler of `GET /installed` answers with a 302 redirect to `/registered` and
leaves the shared AppConfig, the files, the record of writes and the record
of GitHub calls as they were. The missing value reads as the empty string,
which `strconv.Atoi` rejects. -/
theorem install_callback_rejects_malformed_id (env : Env) (servercfg : serverConfig)
    (r : Request) (w : World)
    (hbad : (Atoi (r.queryGet "installation_id")).2 ≠ none) :
    (installCallbackHandler env servercfg r w).1 = .redirect "/registered" 302
    ∧ (installCallbackHandler env servercfg r w).2.appcfg = w.appcfg
    ∧ (installCallbackHandler env servercfg r w).2.writes = w.writes
    ∧ (installCallbackHandler env servercfg r w).2.files = w.files
    ∧ (installCallbackHandler env servercfg r w).2.calls = w.calls := by
  unfold installCallbackHandler
  rcases hatoi : Atoi (r.queryGet "installation_id") with ⟨n, _ | err⟩
  · rw [hatoi] at hbad; exact absurd rfl hbad
  · simp [hatoi]

/-- C5, at concrete inputs: no `installation_id` at all, and `installation_id=abc`,
for an installed app. -/
theorem install_callback_rejects_malformed_id_witness :
    ((Atoi (Request.queryGet ⟨"/installed", []⟩ "installation_id")).2 ≠ none
      ∧ (installCallbackHandler (sampleEnv answer404) sampleServer ⟨"/installed", []⟩
          { appcfg := sampleApp }).1 = .redirect "/registered" 302
      ∧ (installCallbackHandler (sampleEnv answer404) sampleServer ⟨"/installed", []⟩
          { appcfg := sampleApp }).2.appcfg = sampleApp
      ∧ (installCallbackHandler (sampleEnv answer404) sampleServer ⟨"/installed", []⟩
          { appcfg := sampleApp }).2.writes = [])
    ∧ ((Atoi (Request.queryGet ⟨"/installed", [("installation_id", "abc")]⟩
          "installation_id")).2 ≠ none
      ∧ (installCallbackHandler (sampleEnv answer404) sampleServer
          ⟨"/installed", [("installation_id", "abc")]⟩ { appcfg := sampleApp }).1
        = .redirect "/registered" 302
      ∧ (installCallbackHandler (sampleEnv answer404) sampleServer
          ⟨"/installed", [("installation_id", "abc")]⟩ { appcfg := sampleApp }).2.appcfg
        = sampleApp
      ∧ (installCallbackHandler (sampleEnv answer404) sampleServer
          ⟨"/installed", [("installation_id", "abc")]⟩ { appcfg := sampleApp }).2.writes = []) := by
  have h1 := install_callback_rejects_malformed_id (sampleEnv answer404) sampleServer
    ⟨"/installed", []⟩ { appcfg := sampleApp } (by decide)
  have h2 := install_callback_rejects_malformed_id (sampleEnv answer404) sampleServer
    ⟨"/installed", [("installation_id", "abc")]⟩ { appcfg := sampleApp } (by decide)
  exact ⟨⟨by decide, h1.1, h1.2.1, h1.2.2.1⟩, ⟨by decide, h2.1, h2.2.1, h2.2.2.1⟩⟩

/-! ## The registration callback -/

/-- C6. For every request to `/registered`, whatever its code, in a state whose
AppID is non-empty, the handler sends nothing to GitHub
(`fetchAppRegistration` is not run), leaves the shared AppConfig as it was and
writes no file; it shows the registered page for the unchanged AppConfig. -/
theorem register_callback_idempotent (env : Env) (servercfg : serverConfig) (r : Request)
    (w : World) (hreg : w.appcfg.AppID ≠ "") :
    (registerCallbackHandler env servercfg r w).2.calls = w.calls
    ∧ (registerCallbackHandler env servercfg r w).2.appcfg = w.appcfg
    ∧ (registerCallbackHandler env servercfg r w).2.writes = w.writes
    ∧ (registerCallbackHandler env servercfg r w).2.files = w.files
    ∧ (registerCallbackHandler env servercfg r w).1
      = registeredReply env servercfg (r.queryGet "code") w := by
  unfold registerCallbackHandler
  simp [hreg]

/-- C6, at a concrete input: a code arrives for an app that is registered already. -/
theorem register_callback_idempotent_witness :
    registeredApp.AppID ≠ ""
    ∧ (registerCallbackHandler (sampleEnv answerCreated) sampleServer
        ⟨"/registered", [("code", "c0de")]⟩ { appcfg := registeredApp }).2.calls = []
    ∧ (registerCallbackHandler (sampleEnv answerCreated) sampleServer
        ⟨"/registered", [("code", "c0de")]⟩ { appcfg := registeredApp }).2.appcfg = registeredApp
    ∧ (registerCallbackHandler (sampleEnv answerCreated) sampleServer
        ⟨"/registered", [("code", "c0de")]⟩ { appcfg := registeredApp }).2.writes = [] := by
  have h := register_callback_idempotent (sampleEnv answerCreated) sampleServer
    ⟨"/registered", [("code", "c0de")]⟩ { appcfg := registeredApp } (by decide)
  exact ⟨by decide, h.1, h.2.1, h.2.2.1⟩

/-- What the registration callback does with the exchange, for every non-empty
code in a state whose AppID is empty, when the request can be built. If the
exchange fails (a transport error, a response whose status is not 201, or a
body that does not decode), the handler answers with a 302 redirect to `/`,
leaves the shared AppConfig as it was and writes nothing. If the response has
status 201 and decodes, the decoded AppConfig replaces the shared one, its
YAML is handed to `ioutil.WriteFile` for `config/app.yml` (and is the file's
content when that write goes through), and the registered page is shown.
`fetchAppRegistration` returns a nil error only on status 201. -/
theorem register_callback_exchange (env : Env) (servercfg : serverConfig) (r : Request)
    (w : World) (hcode : r.queryGet "code" ≠ "") (hunreg : w.appcfg.AppID = "")
    (hnew : env.newRequest "POST" (buildGitHubAPIURL
      (env.sprintf servercfg.FetchRegistrationPath [r.queryGet "code"]) servercfg) = none) :
    (registerCallbackHandler env servercfg r w).2.calls
      = w.calls ++ [⟨"POST", buildGitHubAPIURL
          (env.sprintf servercfg.FetchRegistrationPath [r.queryGet "code"]) servercfg,
          [("Content-Type", "application/json")]⟩]
    ∧ (((∃ err, env.roundTrip w.calls.length ⟨"POST", buildGitHubAPIURL
            (env.sprintf servercfg.FetchRegistrationPath [r.queryGet "code"]) servercfg,
            [("Content-Type", "application/json")]⟩ = .error err)
        ∨ (∃ res, env.roundTrip w.calls.length ⟨"POST", buildGitHubAPIURL
            (env.sprintf servercfg.FetchRegistrationPath [r.queryGet "code"]) servercfg,
            [("Content-Type", "application/json")]⟩ = .ok res
          ∧ (res.StatusCode ≠ 201 ∨ (env.jsonDecodeAppConfig res {}).2 ≠ none))) →
        (registerCallbackHandler env servercfg r w).1 = .redirect "/" 302
        ∧ (registerCallbackHandler env servercfg r w).2.appcfg = w.appcfg
        ∧ (registerCallbackHandler env servercfg r w).2.writes = w.writes
        ∧ (registerCallbackHandler env servercfg r w).2.files = w.files)
    ∧ (∀ (res : HTTPResponse) (cfg : appConfig),
        env.roundTrip w.calls.length ⟨"POST", buildGitHubAPIURL
          (env.sprintf servercfg.FetchRegistrationPath [r.queryGet "code"]) servercfg,
          [("Content-Type", "application/json")]⟩ = .ok res →
        res.StatusCode = 201 → env.jsonDecodeAppConfig res {} = (cfg, none) →
        (registerCallbackHandler env servercfg r w).2.appcfg = cfg
        ∧ (registerCallbackHandler env servercfg r w).1
          = registeredReply env servercfg (r.queryGet "code")
              (registerCallbackHandler env servercfg r w).2
        ∧ ∀ b : String, env.yamlMarshalAppConfig cfg = (b, none) →
            (registerCallbackHandler env servercfg r w).2.writes
              = w.writes ++ [⟨appCfgPath, b, 384⟩]
            ∧ (env.writeFault w.writes.length ⟨appCfgPath, b, 384⟩ = none →
                (registerCallbackHandler env servercfg r w).2.files appCfgPath = some b))
    ∧ (∀ cfg : appConfig,
        (fetchAppRegistration env servercfg (r.queryGet "code") w).1 = (cfg, none) →
        ∃ res, env.roundTrip w.calls.length ⟨"POST", buildGitHubAPIURL
            (env.sprintf servercfg.FetchRegistrationPath [r.queryGet "code"]) servercfg,
            [("Content-Type", "application/json")]⟩ = .ok res
          ∧ res.StatusCode = 201) := by
  refine ⟨?_, ?_, ?_, ?_⟩
  · unfold registerCallbackHandler
    simp only [hcode, hunreg, ne_eq, not_false_eq_true, and_self, if_true]
    have hc := fetchAppRegistration_calls env servercfg (r.queryGet "code") w hnew
    split
    · next heq => rw [heq] at hc; exact hc
    · next heq => rw [heq] at hc; simp only []; rw [writeAppConfig_calls]; exact hc
  · intro hfail
    unfold registerCallbackHandler fetchAppRegistration send
    simp only [hcode, hunreg, ne_eq, not_false_eq_true, and_self, if_true, hnew]
    rcases hfail with ⟨err, hrt⟩ | ⟨res, hrt, hbad⟩
    · simp [hrt]
    · simp only [hrt]
      rcases hbad with hstatus | hdec
      · simp [hstatus]
      · by_cases hstatus : res.StatusCode = 201
        · rcases hjson : env.jsonDecodeAppConfig res {} with ⟨cfg, _ | err⟩
          · rw [hjson] at hdec; exact absurd rfl hdec
          · simp [hstatus, hjson]
        · simp [hstatus]
  · intro res cfg hrt hstatus hdec
    unfold registerCallbackHandler fetchAppRegistration send
    simp only [hcode, hunreg, ne_eq, not_false_eq_true, and_self, if_true, hnew, hrt, hstatus,
      not_true_eq_false, if_false, hdec]
    refine ⟨writeAppConfig_appcfg _ _ _, trivial, ?_⟩
    intro b hyaml
    unfold writeAppConfig writeFile
    simp only [hyaml]
    refine ⟨?_, ?_⟩
    · generalize env.writeFault _ _ = fault
      rcases fault with _ | ⟨err, left⟩ <;> rfl
    · intro hwrite
      simp [hwrite]
  · intro cfg hok
    obtain ⟨res, hrt, hstatus, -⟩ := fetchAppRegistration_success env servercfg _ w cfg hok
    exact ⟨res, hrt, hstatus⟩

/-- The registration callback at concrete inputs: the exchange is refused, answered
with 404, answered with 201 and an undecodable body, and answered with 201
and the app. -/
theorem register_callback_exchange_witness :
    (codeRequest.queryGet "code" ≠ "" ∧ ({} : World).appcfg.AppID = "")
    ∧ ((registerCallbackHandler (sampleEnv answerRefused) sampleServer codeRequest {}).1
        = .redirect "/" 302
      ∧ (registerCallbackHandler (sampleEnv answerRefused) sampleServer codeRequest {}).2.appcfg
        = {}
      ∧ (registerCallbackHandler (sampleEnv answerRefused) sampleServer codeRequest {}).2.writes
        = [])
    ∧ ((registerCallbackHandler (sampleEnv answer404) sampleServer codeRequest {}).1
        = .redirect "/" 302
      ∧ (registerCallbackHandler (sampleEnv answer404) sampleServer codeRequest {}).2.appcfg
        = {}
      ∧ (registerCallbackHandler (sampleEnv answer404) sampleServer codeRequest {}).2.writes
        = [])
    ∧ ((registerCallbackHandler (sampleEnv answerGarbage) sampleServer codeRequest {}).1
        = .redirect "/" 302
      ∧ (registerCallbackHandler (sampleEnv answerGarbage) sampleServer codeRequest {}).2.appcfg
        = {}
      ∧ (registerCallbackHandler (sampleEnv answerGarbage) sampleServer codeRequest {}).2.writes
        = [])
    ∧ ((registerCallbackHandler (sampleEnv answerCreated) sampleServer codeRequest {}).2.calls
        = [exchangeRequest]
      ∧ (registerCallbackHandler (sampleEnv answerCreated) sampleServer codeRequest {}).2.appcfg
        = registeredApp
      ∧ (registerCallbackHandler (sampleEnv answerCreated) sampleServer codeRequest {}).2.writes
        = [⟨"config/app.yml", registeredAppYAML, 384⟩]
      ∧ (registerCallbackHandler (sampleEnv answerCreated) sampleServer codeRequest {}).2.files
          "config/app.yml"
        = some registeredAppYAML) := by
  have hRefused := (register_callback_exchange (sampleEnv answerRefused) sampleServer
    codeRequest {} (by decide) rfl rfl).2.1
    (Or.inl ⟨"dial tcp: connection refused", rfl⟩)
  have h404 := (register_callback_exchange (sampleEnv answer404) sampleServer
    codeRequest {} (by decide) rfl rfl).2.1
    (Or.inr ⟨⟨404, "404 Not Found", "bad code", none⟩, rfl, Or.inl (by decide)⟩)
  have hGarbage := (register_callback_exchange (sampleEnv answerGarbage) sampleServer
    codeRequest {} (by decide) rfl rfl).2.1
    (Or.inr ⟨⟨201, "201 Created", "garbage", none⟩, rfl, Or.inr (by decide)⟩)
  have hCreated := register_callback_exchange (sampleEnv answerCreated) sampleServer
    codeRequest {} (by decide) rfl rfl
  have hOk := hCreated.2.2.1 ⟨201, "201 Created", "app", none⟩ registeredApp rfl rfl
    (by decide)
  have hWrite := hOk.2.2 registeredAppYAML (by decide)
  exact ⟨⟨by decide, rfl⟩, ⟨hRefused.1, hRefused.2.1, hRefused.2.2.1⟩,
    ⟨h404.1, h404.2.1, h404.2.2.1⟩, ⟨hGarbage.1, hGarbage.2.1, hGarbage.2.2.1⟩,
    ⟨hCreated.1, hOk.1, hWrite.1, hWrite.2 rfl⟩⟩

/-- When the request of the exchange cannot be built (the code makes the URL
unparseable), nothing is sent: the handler answers with a 302 redirect to `/`
and leaves everything as it was. -/
theorem register_callback_unbuilt_request (env : Env) (servercfg : serverConfig) (r : Request)
    (w : World) (err : GoError) (hcode : r.queryGet "code" ≠ "") (hunreg : w.appcfg.AppID = "")
    (hnew : env.newRequest "POST" (buildGitHubAPIURL
      (env.sprintf servercfg.FetchRegistrationPath [r.queryGet "code"]) servercfg) = some err) :
    (registerCallbackHandler env servercfg r w).1 = .redirect "/" 302
    ∧ (registerCallbackHandler env servercfg r w).2.calls = w.calls
    ∧ (registerCallbackHandler env servercfg r w).2.appcfg = w.appcfg
    ∧ (registerCallbackHandler env servercfg r w).2.writes = w.writes
    ∧ (registerCallbackHandler env servercfg r w).2.files = w.files := by
  unfold registerCallbackHandler
  simp [hcode, hunreg, fetchAppRegistration_unbuilt env servercfg _ w err hnew]

/-- C7, at the failing input: an unregistered server receives
`GET /registered?code=c0de`, GitHub answers the exchange with 201 and the app,
and the file system refuses the write of `config/app.yml`. The exchange
succeeds and the decoded AppConfig replaces the shared one, `ioutil.WriteFile`
fails, and the handler shows the registered page all the same: no file
exists afterwards and the following `loadAppConfig` returns the zero-value
AppConfig with an error. -/
theorem register_callback_hides_write_failure :
    (codeRequest.queryGet "code" ≠ "" ∧ ({} : World).appcfg.AppID = ""
      ∧ noWriteCreatedEnv.roundTrip 0 exchangeRequest = .ok ⟨201, "201 Created", "app", none⟩
      ∧ (fetchAppRegistration noWriteCreatedEnv sampleServer "c0de" {}).1
        = (registeredApp, none))
    ∧ (writeFile noWriteCreatedEnv "config/app.yml" registeredAppYAML 384 {}).1
      = some "open config/app.yml: no such file or directory"
    ∧ (registerCallbackHandler noWriteCreatedEnv sampleServer codeRequest {}).1
      = .registered ⟨"GitHub App registered", "c0de",
          "https://github.com/apps/demo/installations/new", registeredApp, sampleServer⟩
    ∧ (registerCallbackHandler noWriteCreatedEnv sampleServer codeRequest {}).2.appcfg
      = registeredApp
    ∧ (registerCallbackHandler noWriteCreatedEnv sampleServer codeRequest {}).2.writes
      = [⟨"config/app.yml", registeredAppYAML, 384⟩]
    ∧ (registerCallbackHandler noWriteCreatedEnv sampleServer codeRequest {}).2.files
        "config/app.yml"
      = none
    ∧ loadAppConfig noWriteCreatedEnv
        (registerCallbackHandler noWriteCreatedEnv sampleServer codeRequest {}).2
      = ({}, some "open config/app.yml: no such file or directory") := by
  refine ⟨⟨?_, ?_, rfl, ?_⟩, ?_, ?_, ?_, ?_, ?_, ?_⟩ <;> decide

/-! ## The guards of fetchInstalledDetails -/

/-- C8. For every AppConfig with an empty AppID, `fetchInstalledDetails` returns
the zero-value view with the error `app not registered`; for every AppConfig
with a non-empty AppID and InstallationID 0 it returns the zero-value view
with the error `app not installed`, a different text. In both cases nothing
is sent to GitHub (neither `fetchApp` nor `fetchAccessToken` nor
`fetchInstallationRepos` runs): the world is returned as it was. -/
theorem fetchInstalledDetails_guards (env : Env) (servercfg : serverConfig)
    (appcfg : appConfig) (w : World) :
    (appcfg.AppID = "" →
      (fetchInstalledDetails env servercfg appcfg w).1 = ({}, some "app not registered")
      ∧ (fetchInstalledDetails env servercfg appcfg w).2.calls = w.calls
      ∧ (fetchInstalledDetails env servercfg appcfg w).2.writes = w.writes)
    ∧ (appcfg.AppID ≠ "" → appcfg.InstallationID = 0 →
      (fetchInstalledDetails env servercfg appcfg w).1 = ({}, some "app not installed")
      ∧ (fetchInstalledDetails env servercfg appcfg w).2.calls = w.calls
      ∧ (fetchInstalledDetails env servercfg appcfg w).2.writes = w.writes)
    ∧ ("app not registered" : GoError) ≠ "app not installed" := by
  refine ⟨fun h => ?_, fun h1 h2 => ?_, by decide⟩
  · unfold fetchInstalledDetails
    simp [h]
  · unfold fetchInstalledDetails
    simp [h1, h2]

/-- C8, at concrete inputs: the zero-value AppConfig, and a registered app that
is not installed, with a GitHub that would answer. -/
theorem fetchInstalledDetails_guards_witness :
    (({} : appConfig).AppID = ""
      ∧ (fetchInstalledDetails (sampleEnv answerCreated) sampleServer {} {}).1
        = ({}, some "app not registered")
      ∧ (fetchInstalledDetails (sampleEnv answerCreated) sampleServer {} {}).2.calls = [])
    ∧ (registeredApp.AppID ≠ "" ∧ registeredApp.InstallationID = 0
      ∧ (fetchInstalledDetails (sampleEnv answerCreated) sampleServer registeredApp {}).1
        = ({}, some "app not installed")
      ∧ (fetchInstalledDetails (sampleEnv answerCreated) sampleServer registeredApp {}).2.calls
        = []) := by
  have h := fetchInstalledDetails_guards (sampleEnv answerCreated) sampleServer
  have h1 := (h {} {}).1 rfl
  have h2 := (h registeredApp {}).2.1 (by decide) rfl
  exact ⟨⟨rfl, h1.1, h1.2.1⟩, ⟨by decide, rfl, h2.1, h2.2.1⟩⟩

/-! ## The JWT -/

/-- C9. For every AppConfig and every reading of the clock: when the PEM parses
as an RSA private key, the claims `makejwt` builds, validates and signs have
`iss` equal to the numeric ID field of the AppConfig, `iat` equal to the
clock's Unix time and `exp - iat = 600`, and `makejwt` returns what signing
those claims with the parsed key returns (or the error of `claims.Valid()`);
when the PEM does not parse `makejwt` returns the empty token and the parse
error. -/
theorem makejwt_claims (env : Env) (cfg : appConfig) (w : World) :
    (∀ pk : String, env.parseRSAPrivateKeyFromPEM cfg.PEM = .ok pk →
      ∃ claims : MapClaims, ∃ iat exp : Int,
        claims.get "iss" = some cfg.ID
        ∧ claims.get "iat" = some iat ∧ claims.get "exp" = some exp
        ∧ iat = (env.now w.calls.length).Unix
        ∧ exp - iat = 600
        ∧ makejwt env cfg w
          = (match env.claimsValid claims with
              | some err => ("", some err)
              | none => env.signedString pk claims))
    ∧ (∀ err : GoError, env.parseRSAPrivateKeyFromPEM cfg.PEM = .error err →
      makejwt env cfg w = ("", some err)) := by
  refine ⟨fun pk hpk => ?_, fun err herr => ?_⟩
  · refine ⟨((({} : MapClaims).set "iss" cfg.ID).set "iat" (env.now w.calls.length).Unix).set
      "exp" ((env.now w.calls.length).Add (10 * Minute)).Unix,
      (env.now w.calls.length).Unix, ((env.now w.calls.length).Add (10 * Minute)).Unix,
      ?_, ?_, ?_, rfl, ?_, ?_⟩
    · simp [MapClaims.set, MapClaims.get]
    · simp [MapClaims.set, MapClaims.get]
    · simp [MapClaims.set, MapClaims.get]
    · simp only [Time.Unix, Time.Add, Minute, Second, Nanosecond]
      omega
    · unfold makejwt
      simp only [hpk]
  · unfold makejwt
    simp only [herr]

/-- C9, at concrete inputs: the sample app, whose key parses, at the sample
clock reading 1700000000.123456789, and the zero-value AppConfig, whose empty
PEM does not parse. -/
theorem makejwt_claims_witness :
    ((sampleEnv answer404).parseRSAPrivateKeyFromPEM sampleApp.PEM = .ok "key"
      ∧ ∃ claims : MapClaims, ∃ iat exp : Int,
        claims.get "iss" = some 7
        ∧ claims.get "iat" = some iat ∧ claims.get "exp" = some exp
        ∧ iat = 1700000000
        ∧ exp - iat = 600
        ∧ makejwt (sampleEnv answer404) sampleApp {} = ("signed", none))
    ∧ ((sampleEnv answer404).parseRSAPrivateKeyFromPEM ({} : appConfig).PEM
        = .error "Invalid Key: Key must be PEM encoded PKCS1 or PKCS8 private key"
      ∧ makejwt (sampleEnv answer404) {} {}
        = ("", some "Invalid Key: Key must be PEM encoded PKCS1 or PKCS8 private key")) := by
  refine ⟨⟨rfl, ?_⟩, ⟨rfl, ?_⟩⟩
  · obtain ⟨claims, iat, exp, h1, h2, h3, h4, h5, h6⟩ :=
      (makejwt_claims (sampleEnv answer404) sampleApp {}).1 "key" rfl
    exact ⟨claims, iat, exp, h1, h2, h3, h4.trans (by decide), h5, h6.trans rfl⟩
  · exact (makejwt_claims (sampleEnv answer404) {} {}).2 _ rfl

/-! ## The manifest -/

/-- C10. For every server configuration and every manifest file that the YAML
library reads without error as the manifest `man0`, `loadManifest` returns
`man0` with RedirectURL replaced by scheme ++ "://" ++ host ++ "/registered",
SetupURL replaced by scheme ++ "://" ++ host ++ "/installed", whatever the
two were in the file, and FormValue set to the JSON (`AsJSON`) of the
manifest that carries those two URLs; the error returned is that of the JSON
serialization. -/
theorem loadManifest_callback_urls (env : Env) (cfg : serverConfig) (w : World)
    (yamlstr : String) (man0 : manifest)
    (hfile : w.files manifestPath = some yamlstr)
    (hwell : env.yamlUnmarshalManifest yamlstr {} = (man0, none)) :
    (loadManifest env cfg w).1.RedirectURL = cfg.Scheme ++ "://" ++ cfg.Host ++ "/registered"
    ∧ (loadManifest env cfg w).1.SetupURL = cfg.Scheme ++ "://" ++ cfg.Host ++ "/installed"
    ∧ (loadManifest env cfg w).1.FormValue
      = (manifest.AsJSON env { man0 with
          RedirectURL := cfg.Scheme ++ "://" ++ cfg.Host ++ "/registered",
          SetupURL := cfg.Scheme ++ "://" ++ cfg.Host ++ "/installed" }).1
    ∧ (loadManifest env cfg w).1
      = { man0 with
          RedirectURL := cfg.Scheme ++ "://" ++ cfg.Host ++ "/registered",
          SetupURL := cfg.Scheme ++ "://" ++ cfg.Host ++ "/installed",
          FormValue := (loadManifest env cfg w).1.FormValue }
    ∧ (loadManifest env cfg w).2
      = (manifest.AsJSON env { man0 with
          RedirectURL := cfg.Scheme ++ "://" ++ cfg.Host ++ "/registered",
          SetupURL := cfg.Scheme ++ "://" ++ cfg.Host ++ "/installed" }).2 := by
  unfold loadManifest readFile
  simp [hfile, hwell, buildLocalURL]

/-- C10, at a concrete input: the default server and a manifest file whose
`redirect_url` is stale. -/
theorem loadManifest_callback_urls_witness :
    (manifestWorld.files manifestPath = some "name: demo"
      ∧ (sampleEnv answer404).yamlUnmarshalManifest "name: demo" {}
        = ({ Name := "demo", RedirectURL := "http://old/r" }, none))
    ∧ (loadManifest (sampleEnv answer404) sampleServer manifestWorld).1.RedirectURL
      = "http://localhost:5000/registered"
    ∧ (loadManifest (sampleEnv answer404) sampleServer manifestWorld).1.SetupURL
      = "http://localhost:5000/installed"
    ∧ (loadManifest (sampleEnv answer404) sampleServer manifestWorld).1.FormValue
      = "json http://localhost:5000/registered http://localhost:5000/installed" := by
  have h := loadManifest_callback_urls (sampleEnv answer404) sampleServer manifestWorld
    "name: demo" { Name := "demo", RedirectURL := "http://old/r" } (by decide) (by decide)
  exact ⟨⟨by decide, by decide⟩, h.1.trans (by decide), h.2.1.trans (by decide),
    h.2.2.1.trans (by decide)⟩

/-! ## Writing and reading back the app configuration -/

/-- When the YAML library serializes `cfg`, the write goes through and the library
reads back what it wrote, `writeAppConfig` returns nil and a following
`loadAppConfig` returns `cfg` and no error. -/
theorem writeAppConfig_then_loadAppConfig (env : Env) (cfg : appConfig) (w : World)
    (b : String)
    (hyaml : env.yamlMarshalAppConfig cfg = (b, none))
    (hwrite : env.writeFault w.writes.length ⟨appCfgPath, b, 384⟩ = none)
    (hback : env.yamlUnmarshalAppConfig b {} = (cfg, none)) :
    (writeAppConfig env cfg w).1 = none
    ∧ (writeAppConfig env cfg w).2.files appCfgPath = some b
    ∧ loadAppConfig env (writeAppConfig env cfg w).2 = (cfg, none) := by
  unfold writeAppConfig writeFile
  simp only [hyaml, hwrite]
  refine ⟨trivial, by simp, ?_⟩
  unfold loadAppConfig readFile
  simp [hback]

/-- Whenever the YAML library serializes `cfg` and the write fails, `writeAppConfig`
still returns nil, and the file holds what the failed write left. -/
theorem writeAppConfig_nil_on_write_failure (env : Env) (cfg : appConfig) (w : World)
    (b : String) (err : GoError) (left : Option String)
    (hyaml : env.yamlMarshalAppConfig cfg = (b, none))
    (hfail : env.writeFault w.writes.length ⟨appCfgPath, b, 384⟩ = some (err, left)) :
    (writeAppConfig env cfg w).1 = none
    ∧ (writeAppConfig env cfg w).2.files appCfgPath = left := by
  unfold writeAppConfig writeFile
  simp [hyaml, hfail]

/-- C11, at the failing input: the sample app is written on a file system that
refuses the write of `config/app.yml` and leaves no file. `ioutil.WriteFile`
fails, `writeAppConfig` returns nil all the same, the file does not exist
afterwards, and the following `loadAppConfig` returns the zero-value AppConfig
with an error instead of the AppConfig written. -/
theorem writeAppConfig_hides_write_failure :
    noWriteEnv.yamlMarshalAppConfig sampleApp = (sampleAppYAML, none)
    ∧ noWriteEnv.writeFault 0 ⟨"config/app.yml", sampleAppYAML, 384⟩
      = some ("open config/app.yml: no such file or directory", none)
    ∧ (writeFile noWriteEnv "config/app.yml" sampleAppYAML 384 {}).1
      = some "open config/app.yml: no such file or directory"
    ∧ (writeAppConfig noWriteEnv sampleApp {}).1 = none
    ∧ (writeAppConfig noWriteEnv sampleApp {}).2.writes
      = [⟨"config/app.yml", sampleAppYAML, 384⟩]
    ∧ (writeAppConfig noWriteEnv sampleApp {}).2.files "config/app.yml" = none
    ∧ loadAppConfig noWriteEnv (writeAppConfig noWriteEnv sampleApp {}).2
      = ({}, some "open config/app.yml: no such file or directory") := by
  refine ⟨?_, ?_, ?_, ?_, ?_, ?_, ?_⟩ <;> decide

end ManifestFlow
